import Mathlib

/-!
Verification development for the munbox legacy-Macintosh archive decoder.

The definitions below are shallow embeddings of the C sources:
  - src/lib/munbox.c          (detection driver, memory source layer)
  - src/lib/layers/sit.c      (classic StuffIt layer, RLE90/copy streaming, CRC)
  - src/lib/layers/hqx.c      (BinHex 4.0 layer, RLE90 decoding)
  - src/lib/layers/bin.c      (MacBinary layer, header validation)
  - src/lib/layers/cpt.c      (Compact Pro layer, LZH + RLE decoding)
Bytes are modelled as natural numbers (values kept below 256 by the
operations that produce them); machine-integer truncation is written
explicitly where the C code relies on it.
-/

/-- Boolean test that the first list is a prefix of the second
(byte-wise memcmp-style comparison). -/
def listPrefix : List Nat → List Nat → Bool
  | [], _ => true
  | _ :: _, [] => false
  | a :: as, b :: bs => a == b && listPrefix as bs

/-- Boolean test that the pattern occurs contiguously inside the haystack
(the search strstr performs on a NUL-terminated buffer). -/
def listInfix (p : List Nat) : List Nat → Bool
  | [] => listPrefix p []
  | b :: t => listPrefix p (b :: t) || listInfix p t

/-- Big-endian 16-bit load from a byte list at an offset (LOAD_BE16). -/
def loadBE16 (l : List Nat) (i : Nat) : Nat :=
  l.getD i 0 * 256 + l.getD (i + 1) 0

/-- Big-endian 32-bit load from a byte list at an offset (LOAD_BE32). -/
def loadBE32 (l : List Nat) (i : Nat) : Nat :=
  ((l.getD i 0 * 256 + l.getD (i + 1) 0) * 256 + l.getD (i + 2) 0) * 256 + l.getD (i + 3) 0

/-- ASCII byte list of a string literal. -/
def strBytes (s : String) : List Nat := s.toList.map Char.toNat

/-- The reflected CRC-16 table (poly 0x8005) from sit.c (sit_crc_table). -/
def sitCrcTable : List Nat := [
  0x0000, 0xC0C1, 0xC181, 0x0140, 0xC301, 0x03C0, 0x0280, 0xC241, 0xC601, 0x06C0, 0x0780, 0xC741, 0x0500, 0xC5C1,
  0xC481, 0x0440, 0xCC01, 0x0CC0, 0x0D80, 0xCD41, 0x0F00, 0xCFC1, 0xCE81, 0x0E40, 0x0A00, 0xCAC1, 0xCB81, 0x0B40,
  0xC901, 0x09C0, 0x0880, 0xC841, 0xD801, 0x18C0, 0x1980, 0xD941, 0x1B00, 0xDBC1, 0xDA81, 0x1A40, 0x1E00, 0xDEC1,
  0xDF81, 0x1F40, 0xDD01, 0x1DC0, 0x1C80, 0xDC41, 0x1400, 0xD4C1, 0xD581, 0x1540, 0xD701, 0x17C0, 0x1680, 0xD641,
  0xD201, 0x12C0, 0x1380, 0xD341, 0x1100, 0xD1C1, 0xD081, 0x1040, 0xF001, 0x30C0, 0x3180, 0xF141, 0x3300, 0xF3C1,
  0xF281, 0x3240, 0x3600, 0xF6C1, 0xF781, 0x3740, 0xF501, 0x35C0, 0x3480, 0xF441, 0x3C00, 0xFCC1, 0xFD81, 0x3D40,
  0xFF01, 0x3FC0, 0x3E80, 0xFE41, 0xFA01, 0x3AC0, 0x3B80, 0xFB41, 0x3900, 0xF9C1, 0xF881, 0x3840, 0x2800, 0xE8C1,
  0xE981, 0x2940, 0xEB01, 0x2BC0, 0x2A80, 0xEA41, 0xEE01, 0x2EC0, 0x2F80, 0xEF41, 0x2D00, 0xEDC1, 0xEC81, 0x2C40,
  0xE401, 0x24C0, 0x2580, 0xE541, 0x2700, 0xE7C1, 0xE681, 0x2640, 0x2200, 0xE2C1, 0xE381, 0x2340, 0xE101, 0x21C0,
  0x2080, 0xE041, 0xA001, 0x60C0, 0x6180, 0xA141, 0x6300, 0xA3C1, 0xA281, 0x6240, 0x6600, 0xA6C1, 0xA781, 0x6740,
  0xA501, 0x65C0, 0x6480, 0xA441, 0x6C00, 0xACC1, 0xAD81, 0x6D40, 0xAF01, 0x6FC0, 0x6E80, 0xAE41, 0xAA01, 0x6AC0,
  0x6B80, 0xAB41, 0x6900, 0xA9C1, 0xA881, 0x6840, 0x7800, 0xB8C1, 0xB981, 0x7940, 0xBB01, 0x7BC0, 0x7A80, 0xBA41,
  0xBE01, 0x7EC0, 0x7F80, 0xBF41, 0x7D00, 0xBDC1, 0xBC81, 0x7C40, 0xB401, 0x74C0, 0x7580, 0xB541, 0x7700, 0xB7C1,
  0xB681, 0x7640, 0x7200, 0xB2C1, 0xB381, 0x7340, 0xB101, 0x71C0, 0x7080, 0xB041, 0x5000, 0x90C1, 0x9181, 0x5140,
  0x9301, 0x53C0, 0x5280, 0x9241, 0x9601, 0x56C0, 0x5780, 0x9741, 0x5500, 0x95C1, 0x9481, 0x5440, 0x9C01, 0x5CC0,
  0x5D80, 0x9D41, 0x5F00, 0x9FC1, 0x9E81, 0x5E40, 0x5A00, 0x9AC1, 0x9B81, 0x5B40, 0x9901, 0x59C0, 0x5880, 0x9841,
  0x8801, 0x48C0, 0x4980, 0x8941, 0x4B00, 0x8BC1, 0x8A81, 0x4A40, 0x4E00, 0x8EC1, 0x8F81, 0x4F40, 0x8D01, 0x4DC0,
  0x4C80, 0x8C41, 0x4400, 0x84C1, 0x8581, 0x4540, 0x8701, 0x47C0, 0x4680, 0x8641, 0x8201, 0x42C0, 0x4380, 0x8341,
  0x4100, 0x81C1, 0x8081, 0x4040]

/-- One step of the reflected CRC-16 update from sit.c (sit_crc_process body). -/
def sitCrcStep (crc b : Nat) : Nat :=
  sitCrcTable.getD ((crc ^^^ b) &&& 0xff) 0 ^^^ (crc >>> 8)

/-- Reflected CRC-16 (poly 0x8005) update over a byte list (sit_crc_update). -/
def sitCrcUpdate (crc : Nat) (bs : List Nat) : Nat :=
  bs.foldl sitCrcStep crc

/-- The CRC-16-CCITT table (poly 0x1021) shared verbatim by hqx.c
(crc16_ccitt_update) and bin.c (crc16_xmodem_update). -/
def ccittTable : List Nat := [
  0x0000, 0x1021, 0x2042, 0x3063, 0x4084, 0x50A5, 0x60C6, 0x70E7, 0x8108, 0x9129, 0xA14A, 0xB16B, 0xC18C, 0xD1AD,
  0xE1CE, 0xF1EF, 0x1231, 0x0210, 0x3273, 0x2252, 0x52B5, 0x4294, 0x72F7, 0x62D6, 0x9339, 0x8318, 0xB37B, 0xA35A,
  0xD3BD, 0xC39C, 0xF3FF, 0xE3DE, 0x2462, 0x3443, 0x0420, 0x1401, 0x64E6, 0x74C7, 0x44A4, 0x5485, 0xA56A, 0xB54B,
  0x8528, 0x9509, 0xE5EE, 0xF5CF, 0xC5AC, 0xD58D, 0x3653, 0x2672, 0x1611, 0x0630, 0x76D7, 0x66F6, 0x5695, 0x46B4,
  0xB75B, 0xA77A, 0x9719, 0x8738, 0xF7DF, 0xE7FE, 0xD79D, 0xC7BC, 0x48C4, 0x58E5, 0x6886, 0x78A7, 0x0840, 0x1861,
  0x2802, 0x3823, 0xC9CC, 0xD9ED, 0xE98E, 0xF9AF, 0x8948, 0x9969, 0xA90A, 0xB92B, 0x5AF5, 0x4AD4, 0x7AB7, 0x6A96,
  0x1A71, 0x0A50, 0x3A33, 0x2A12, 0xDBFD, 0xCBDC, 0xFBBF, 0xEB9E, 0x9B79, 0x8B58, 0xBB3B, 0xAB1A, 0x6CA6, 0x7C87,
  0x4CE4, 0x5CC5, 0x2C22, 0x3C03, 0x0C60, 0x1C41, 0xEDAE, 0xFD8F, 0xCDEC, 0xDDCD, 0xAD2A, 0xBD0B, 0x8D68, 0x9D49,
  0x7E97, 0x6EB6, 0x5ED5, 0x4EF4, 0x3E13, 0x2E32, 0x1E51, 0x0E70, 0xFF9F, 0xEFBE, 0xDFDD, 0xCFFC, 0xBF1B, 0xAF3A,
  0x9F59, 0x8F78, 0x9188, 0x81A9, 0xB1CA, 0xA1EB, 0xD10C, 0xC12D, 0xF14E, 0xE16F, 0x1080, 0x00A1, 0x30C2, 0x20E3,
  0x5004, 0x4025, 0x7046, 0x6067, 0x83B9, 0x9398, 0xA3FB, 0xB3DA, 0xC33D, 0xD31C, 0xE37F, 0xF35E, 0x02B1, 0x1290,
  0x22F3, 0x32D2, 0x4235, 0x5214, 0x6277, 0x7256, 0xB5EA, 0xA5CB, 0x95A8, 0x8589, 0xF56E, 0xE54F, 0xD52C, 0xC50D,
  0x34E2, 0x24C3, 0x14A0, 0x0481, 0x7466, 0x6447, 0x5424, 0x4405, 0xA7DB, 0xB7FA, 0x8799, 0x97B8, 0xE75F, 0xF77E,
  0xC71D, 0xD73C, 0x26D3, 0x36F2, 0x0691, 0x16B0, 0x6657, 0x7676, 0x4615, 0x5634, 0xD94C, 0xC96D, 0xF90E, 0xE92F,
  0x99C8, 0x89E9, 0xB98A, 0xA9AB, 0x5844, 0x4865, 0x7806, 0x6827, 0x18C0, 0x08E1, 0x3882, 0x28A3, 0xCB7D, 0xDB5C,
  0xEB3F, 0xFB1E, 0x8BF9, 0x9BD8, 0xABBB, 0xBB9A, 0x4A75, 0x5A54, 0x6A37, 0x7A16, 0x0AF1, 0x1AD0, 0x2AB3, 0x3A92,
  0xFD2E, 0xED0F, 0xDD6C, 0xCD4D, 0xBDAA, 0xAD8B, 0x9DE8, 0x8DC9, 0x7C26, 0x6C07, 0x5C64, 0x4C45, 0x3CA2, 0x2C83,
  0x1CE0, 0x0CC1, 0xEF1F, 0xFF3E, 0xCF5D, 0xDF7C, 0xAF9B, 0xBFBA, 0x8FD9, 0x9FF8, 0x6E17, 0x7E36, 0x4E55, 0x5E74,
  0x2E93, 0x3EB2, 0x0ED1, 0x1EF0]

/-- One step of the CRC-16-CCITT update (crc = (crc << 8) ^ table[(crc >> 8) ^ b],
truncated to 16 bits as in the uint16_t arithmetic of the C code). -/
def ccittStep (crc b : Nat) : Nat :=
  (((crc % 0x10000) <<< 8) ^^^ ccittTable.getD (((crc >>> 8) ^^^ b) &&& 0xff) 0) &&& 0xffff

/-- CRC-16-CCITT / XMODEM update over a byte list (crc16_ccitt_update in hqx.c,
crc16_xmodem_update in bin.c: same table, same recurrence). -/
def ccittUpdate (crc : Nat) (bs : List Nat) : Nat :=
  bs.foldl ccittStep crc

/-! ## Format detection predicates (the factories' accept tests)

Each factory probes a freshly rewound input stream; these predicates state,
as a function of the stream's byte content, whether the factory's header
test succeeds.  They are used both by the driver model (C1) and by the
registry claims (C2, C7). -/

/-- The nine classic StuffIt magics from sit.c (classic_magic) and
bin.c (looks_like_sit). -/
def classicMagics : List (List Nat) :=
  [strBytes "SIT!", strBytes "ST46", strBytes "ST50", strBytes "ST60", strBytes "ST65",
   strBytes "STin", strBytes "STi2", strBytes "STi3", strBytes "STi4"]

/-- Second classic-SIT magic "rLau" at offset 10. -/
def rLauMagic : List Nat := strBytes "rLau"

/-- Classic-SIT header test from munbox_new_sit_layer: 14 bytes are required,
the first four must match one of the nine magics and bytes 10..13 must be
"rLau". -/
def sitDetect (bytes : List Nat) : Bool :=
  14 ≤ bytes.length &&
  classicMagics.any (fun m => listPrefix m bytes) &&
  listPrefix rLauMagic (bytes.drop 10)

/-- The BinHex signature string from hqx.c (BINHEX_SIGNATURE). -/
def binhexSig : List Nat := strBytes "(This file must be converted with BinHex"

/-- Bytes up to (excluding) the first NUL: the region strstr searches in a
NUL-terminated probe buffer. -/
def truncAtZero (l : List Nat) : List Nat := l.takeWhile (fun b => b != 0)

/-- HQX header test from munbox_new_hqx_layer: read up to 256 bytes, require
at least strlen(signature) = 40 bytes, NUL-terminate the buffer at
min(n, 255), and search for the signature with strstr. -/
def hqxDetect (bytes : List Nat) : Bool :=
  let n := min 256 bytes.length
  40 ≤ n && listInfix binhexSig (truncAtZero (bytes.take (min n 255)))

/-- MacBinary header validation from munbox_new_bin_layer, over the 128-byte
header: version byte 0 must be 0 or 1 and then exactly 0, byte 74 must be 0,
the name length must be in 1..63, the stored CRC at 124..125 must match the
CRC-16/XMODEM over bytes 0..123 unless byte 82 is 0, and both fork lengths
must be at most 0x7FFFFFFF. -/
def binHeaderOk (hdr : List Nat) : Bool :=
  let ver := hdr.getD 0 0
  let nameLen := hdr.getD 1 0
  (ver == 0 || ver == 1) && ver == 0 &&
  hdr.getD 74 0 == 0 &&
  !(nameLen == 0) && !(63 < nameLen) &&
  (ccittUpdate 0 (hdr.take 124) == loadBE16 hdr 124 || hdr.getD 82 0 == 0) &&
  !(0x7FFFFFFF < loadBE32 hdr 83) && !(0x7FFFFFFF < loadBE32 hdr 87)

/-- MacBinary factory accept test: a full 128-byte header must be readable
and must validate. -/
def binDetect (bytes : List Nat) : Bool :=
  128 ≤ bytes.length && binHeaderOk (bytes.take 128)

/-- Compact Pro header probe from cpt_probe_header: 8 bytes are required,
byte 0 must be 0x01, byte 1 must be 0x01 and the big-endian directory offset
at 4..7 must lie in [8, 0x10000000]. -/
def cptDetect (bytes : List Nat) : Bool :=
  8 ≤ bytes.length &&
  bytes.getD 0 0 == 0x01 && bytes.getD 1 0 == 0x01 &&
  (let off := loadBE32 bytes 4
   !(off < 8) && !(0x10000000 < off))

/-- First 16 bytes of the SIT5 signature checked by munbox_new_sit5_layer. -/
def sit5SigHead : List Nat := strBytes "StuffIt (c)1997-"

/-- The Aladdin URL part of the SIT5 signature, checked at offset 20. -/
def sit5SigAladdin : List Nat :=
  strBytes " Aladdin Systems, Inc., http://www.aladdinsys.com/StuffIt/"

/-- SIT5 signature test from munbox_new_sit5_layer (and looks_like_sit in
bin.c): 80 bytes are required, the head must match at offset 0 and the
Aladdin string at offset 20. -/
def sit5SigValid (bytes : List Nat) : Bool :=
  80 ≤ bytes.length &&
  listPrefix sit5SigHead bytes &&
  listPrefix sit5SigAladdin (bytes.drop 20)

/-! ## The detection driver (munbox.c) -/

/-- Identifier of a registered format handler. -/
inductive HandlerId
  | sit
  | hqx
  | bin
  | cpt
deriving DecidableEq

/-- The static registry g_format_handlers from munbox.c: four handlers, in
the order sit, hqx, bin, cpt. -/
def gFormatHandlers : List (String × HandlerId) :=
  [("sit", HandlerId.sit), ("hqx", HandlerId.hqx), ("bin", HandlerId.bin), ("cpt", HandlerId.cpt)]

/-- The accept test each registered factory applies to its input stream. -/
def handlerDetect : HandlerId → List Nat → Bool
  | HandlerId.sit, bytes => sitDetect bytes
  | HandlerId.hqx, bytes => hqxDetect bytes
  | HandlerId.bin, bytes => binDetect bytes
  | HandlerId.cpt, bytes => cptDetect bytes

/-- The vtable capabilities of the layer each factory returns, read off the
factory code: sit.c sets layer->read = NULL (enabled only by the first
open()), cpt.c sets layer->read = NULL (set on first open()), while hqx.c
and bin.c install both open and read immediately.  All four install open. -/
structure LayerCaps where
  hasOpen : Bool
  hasRead : Bool
deriving DecidableEq

/-- Capabilities of the freshly constructed layer per handler. -/
def handlerCaps : HandlerId → LayerCaps
  | HandlerId.sit => ⟨true, false⟩
  | HandlerId.hqx => ⟨true, true⟩
  | HandlerId.bin => ⟨true, true⟩
  | HandlerId.cpt => ⟨true, false⟩

/-- Outcome of the munbox_process handler loop at the first accepting
factory (munbox.c lines 234-342): a layer with open and read is iterated, a
layer with only read becomes the new current stream, a layer with neither
read capability makes munbox_process return MUNBOX_ERROR immediately, and
if no factory accepts the fallback path runs. -/
inductive ProcOutcome
  | iterate
  | transform
  | errorNoCaps
  | fallback
deriving DecidableEq

/-- Dispatch of munbox_process on the first handler whose factory accepts
the input stream (the capability test happens before any open() call, so
the lazily enabled read of the sit/cpt layers is still NULL here). -/
def munboxProcessDispatch (bytes : List Nat) : ProcOutcome :=
  match gFormatHandlers.find? (fun h => handlerDetect h.2 bytes) with
  | none => ProcOutcome.fallback
  | some h =>
    let c := handlerCaps h.2
    if c.hasOpen && c.hasRead then ProcOutcome.iterate
    else if c.hasRead then ProcOutcome.transform
    else ProcOutcome.errorNoCaps

/-! ## Classic StuffIt streaming (sit.c)

sit_stream_fill supports five streaming kinds.  The copy and RLE90 kinds
are modelled in full.  For the LZW / method-13 / Arsenic kinds the inner
decompressor (lzw_read, sit13_read, sit15_read) is abstracted by the byte
sequence it will produce (field inner); sit_stream_fill only moves those
bytes, counts them against out_rem and folds them into the CRC, exactly as
the corresponding branches of the C function do. -/

/-- Streaming kind of a SIT fork (enum sit_stream_kind). -/
inductive SKind
  | copy
  | rle90
  | lzw
  | sit13
  | sit15
deriving DecidableEq

/-- State of sit_stream_state_t relevant to streaming. -/
structure SitStream where
  kind : SKind
  src : List Nat
  srcPos : Nat
  outRem : Nat
  skipCrc : Bool
  crcAccum : Nat
  lastByte : Nat
  repRem : Nat
  inner : List Nat
deriving DecidableEq

/-- Conditional CRC accumulation of sit_stream_fill: the accumulator is
updated with the produced bytes unless skip_crc is set. -/
def sitCrcMaybe (skip : Bool) (crc : Nat) (bs : List Nat) : Nat :=
  if skip then crc else sitCrcUpdate crc bs

/-- sit_stream_fill: produce up to cap bytes from the stream state.
Returns none exactly where the C loop would never terminate (copy mode with
the source exhausted but output still owed). -/
def sitStreamFill (ss : SitStream) (cap : Nat) : Option (List Nat × SitStream) :=
  if ss.outRem = 0 then some ([], ss)
  else if _hcap : cap = 0 then some ([], ss)
  else
    match ss.kind with
    | SKind.copy =>
      let n := min (ss.src.length - ss.srcPos) (min ss.outRem cap)
      if _hn : n = 0 then none
      else
        let chunk := (ss.src.drop ss.srcPos).take n
        let ss1 : SitStream :=
          { ss with srcPos := ss.srcPos + n, outRem := ss.outRem - n,
                    crcAccum := sitCrcMaybe ss.skipCrc ss.crcAccum chunk }
        match sitStreamFill ss1 (cap - n) with
        | none => none
        | some (out, ss2) => some (chunk ++ out, ss2)
    | SKind.rle90 =>
      if ss.repRem ≠ 0 then
        let b := ss.lastByte
        let ss1 : SitStream :=
          { ss with repRem := ss.repRem - 1, outRem := ss.outRem - 1,
                    crcAccum := sitCrcMaybe ss.skipCrc ss.crcAccum [b] }
        match sitStreamFill ss1 (cap - 1) with
        | none => none
        | some (out, ss2) => some (b :: out, ss2)
      else if _hsrc : ss.src.length ≤ ss.srcPos then some ([], ss)
      else
        let b := ss.src.getD ss.srcPos 0
        if b = 0x90 then
          if _hsrc2 : ss.src.length ≤ ss.srcPos + 1 then
            some ([], { ss with srcPos := ss.srcPos + 1 })
          else
            let n := ss.src.getD (ss.srcPos + 1) 0
            if n = 0 then
              let ss1 : SitStream :=
                { ss with srcPos := ss.srcPos + 2, outRem := ss.outRem - 1,
                          crcAccum := sitCrcMaybe ss.skipCrc ss.crcAccum [0x90] }
              match sitStreamFill ss1 (cap - 1) with
              | none => none
              | some (out, ss2) => some (0x90 :: out, ss2)
            else if 1 < n then
              sitStreamFill { ss with srcPos := ss.srcPos + 2, repRem := n - 1 } cap
            else
              sitStreamFill { ss with srcPos := ss.srcPos + 2 } cap
        else
          let ss1 : SitStream :=
            { ss with srcPos := ss.srcPos + 1, outRem := ss.outRem - 1, lastByte := b,
                      crcAccum := sitCrcMaybe ss.skipCrc ss.crcAccum [b] }
          match sitStreamFill ss1 (cap - 1) with
          | none => none
          | some (out, ss2) => some (b :: out, ss2)
    | SKind.lzw | SKind.sit13 | SKind.sit15 =>
      let want := min ss.outRem cap
      let n := min want ss.inner.length
      if n = 0 then some ([], ss)
      else
        let chunk := ss.inner.take n
        let ss1 : SitStream :=
          { ss with inner := ss.inner.drop n, outRem := ss.outRem - n,
                    crcAccum := sitCrcMaybe ss.skipCrc ss.crcAccum chunk }
        match sitStreamFill ss1 (cap - n) with
        | none => none
        | some (out, ss2) => some (chunk ++ out, ss2)
termination_by cap + (ss.src.length - ss.srcPos)
decreasing_by
  all_goals simp_wf
  all_goals omega

/-- Error outcome of sit_layer_read. -/
inductive SitReadErr
  | crcMismatch
deriving DecidableEq

/-- sit_layer_read: fill the caller's buffer, then, when the fork has been
fully produced (out_rem = 0) and the stream is not CRC-exempt, compare the
accumulated CRC with the expected one and fail on mismatch. -/
def sitLayerRead (ss : SitStream) (expected : Nat) (cap : Nat) :
    Option (Except SitReadErr (List Nat × SitStream)) :=
  match sitStreamFill ss cap with
  | none => none
  | some (out, ss1) =>
    if ss1.outRem == 0 && !ss1.skipCrc && ss1.crcAccum != expected then
      some (Except.error SitReadErr.crcMismatch)
    else
      some (Except.ok (out, ss1))

/-- Fork descriptor of a classic-SIT entry (sit_fork_desc_t). -/
structure SitForkDesc where
  uncompLen : Nat
  crc : Nat
  method : Nat
  comp : List Nat

/-- Fork setup performed by sit_layer_open (sit.c lines 1104-1151): the
stream state is initialised with crc_accum = 0 and skip_crc = false, then
dispatched on the method; method 15 (Arsenic) sets skip_crc = true because
it validates its CRC internally; any other method than 0/1/2/13/15 is an
error (none).  innerOut abstracts the output of the inner decompressor for
methods 2/13/15. -/
def sitSetupStream (fd : SitForkDesc) (innerOut : List Nat) : Option SitStream :=
  let base : SitStream :=
    { kind := SKind.copy, src := fd.comp, srcPos := 0, outRem := fd.uncompLen,
      skipCrc := false, crcAccum := 0, lastByte := 0, repRem := 0, inner := [] }
  if fd.method == 0 then some base
  else if fd.method == 1 then some { base with kind := SKind.rle90 }
  else if fd.method == 2 then some { base with kind := SKind.lzw, inner := innerOut }
  else if fd.method == 13 then some { base with kind := SKind.sit13, inner := innerOut }
  else if fd.method == 15 then
    some { base with kind := SKind.sit15, inner := innerOut, skipCrc := true }
  else none

/-! ## BinHex RLE90 decoding (hqx.c)

decode_one_byte is modelled at the level of the already de-armored byte
stream (the bytes assembled from the 6-bit symbols); hqx_layer_read stores
every byte it emits into last_output_byte, which the runner below
reproduces. -/

/-- RLE-relevant part of hqx_layer_state_t: remaining repeat count and the
last output byte. -/
structure HqxRle where
  rleCount : Nat
  last : Nat
deriving DecidableEq

/-- decode_one_byte of hqx.c, restricted to its RLE90 logic over the
decoded byte stream: returns the emitted byte, the new state and the
remaining input; none models the error returns (unexpected EOF, and the
invalid RLE count of 1). -/
def hqxDecodeOne (st : HqxRle) (inp : List Nat) : Option (Nat × HqxRle × List Nat) :=
  match st.rleCount, inp with
  | c + 1, _ => some (st.last, ⟨c, st.last⟩, inp)
  | 0, [] => none
  | 0, b :: rest =>
    if b = 0x90 then
      match rest with
      | [] => none
      | n :: rest2 =>
        if n = 0 then some (0x90, ⟨0, st.last⟩, rest2)
        else if 1 < n then some (st.last, ⟨n - 2, st.last⟩, rest2)
        else none
    else some (b, ⟨0, st.last⟩, rest)

/-- The read loop of hqx_layer_read: emit k bytes via decode_one_byte,
updating last_output_byte with every emitted byte. -/
def hqxRleRun : HqxRle → List Nat → Nat → Option (List Nat × HqxRle × List Nat)
  | st, inp, 0 => some ([], st, inp)
  | st, inp, k + 1 =>
    match hqxDecodeOne st inp with
    | none => none
    | some (b, st1, inp1) =>
      match hqxRleRun ⟨st1.rleCount, b⟩ inp1 k with
      | none => none
      | some (out, st2, inp2) => some (b :: out, st2, inp2)

/-- Well-formedness of an RLE90 compressed stream for the equivalence
claim: every 0x90 escape byte is immediately followed by a count byte of at
least 2 (the two decoders treat counts 0 and 1 differently). -/
def rleCountsOk : List Nat → Bool
  | [] => true
  | b :: rest =>
    if b == 0x90 then
      match rest with
      | [] => false
      | n :: rest2 => decide (2 ≤ n) && rleCountsOk rest2
    else rleCountsOk rest

/-! ## open(FIRST) fork selection (C9) -/

/-- Fork kind tag (munbox_fork_t). -/
inductive ForkKind
  | data
  | rsrc
deriving DecidableEq

/-- hqx_layer_open with MUNBOX_OPEN_FIRST: begin at the data fork if
present, otherwise at the resource fork; end when both are empty.
Returns the fork kind and the reported length. -/
def hqxOpenFirst (dataRem rsrcRem : Nat) : Option (ForkKind × Nat) :=
  if 0 < dataRem then some (ForkKind.data, dataRem)
  else if 0 < rsrcRem then some (ForkKind.rsrc, rsrcRem)
  else none

/-- bin_layer_open with MUNBOX_OPEN_FIRST: data fork if present, else
resource fork, else end. -/
def binOpenFirst (dataTotal rsrcLen : Nat) : Option (ForkKind × Nat) :=
  if 0 < dataTotal then some (ForkKind.data, dataTotal)
  else if 0 < rsrcLen then some (ForkKind.rsrc, rsrcLen)
  else none

/-- Archive entry as seen by the fork-skipping loops: the two uncompressed
fork lengths. -/
structure ArcEntry where
  dataLen : Nat
  rsrcLen : Nat

/-- The empty-fork skipping loop shared textually by sit_layer_open and
cpt_layer_open: starting at a given fork of the first remaining entry,
advance past zero-length forks; the result is the index offset of the
selected entry, the selected fork and its length. -/
def skipEmptyForks (l : List ArcEntry) (fk : ForkKind) : Option (Nat × ForkKind × Nat) :=
  match l, fk with
  | [], _ => none
  | e :: rest, ForkKind.data =>
    if e.dataLen == 0 then skipEmptyForks (e :: rest) ForkKind.rsrc
    else some (0, ForkKind.data, e.dataLen)
  | e :: rest, ForkKind.rsrc =>
    if e.rsrcLen == 0 then
      match skipEmptyForks rest ForkKind.data with
      | none => none
      | some (i, f, len) => some (i + 1, f, len)
    else some (0, ForkKind.rsrc, e.rsrcLen)
termination_by (l.length, if fk = ForkKind.data then 1 else 0)

/-- sit_layer_open with MUNBOX_OPEN_FIRST starts at entry 0, data fork, and
runs the empty-fork skipping loop. -/
def sitOpenFirstSel (entries : List ArcEntry) : Option (Nat × ForkKind × Nat) :=
  skipEmptyForks entries ForkKind.data

/-- cpt_layer_open with MUNBOX_OPEN_FIRST: identical iteration logic. -/
def cptOpenFirstSel (entries : List ArcEntry) : Option (Nat × ForkKind × Nat) :=
  skipEmptyForks entries ForkKind.data

/-! ## Memory source layer and factory probes (C7) -/

/-- State of a memory source layer (mem_layer_state_t). -/
structure MemSt where
  bytes : List Nat
  pos : Nat
  opened : Bool
deriving DecidableEq

/-- mem_layer_open with MUNBOX_OPEN_FIRST: rewind to position 0 and mark
opened. -/
def memOpenFirst (m : MemSt) : MemSt := { m with pos := 0, opened := true }

/-- mem_layer_read: produce up to n bytes from the current position. -/
def memReadN (m : MemSt) (n : Nat) : List Nat × MemSt :=
  let k := min n (m.bytes.length - m.pos)
  ((m.bytes.drop m.pos).take k, { m with pos := m.pos + k })

/-- The byte sequence obtainable by subsequent reads from a memory layer
state. -/
def memObtainable (m : MemSt) : List Nat := m.bytes.drop m.pos

/-- Effect of munbox_new_sit_layer probing a (single-fork) memory input:
open(FIRST), read up to 14 header bytes, test the classic magic.  On
decline the factory returns without touching the input again, leaving the
position after the probed bytes. -/
def sitFactoryProbe (m : MemSt) : Bool × MemSt :=
  let m1 := memOpenFirst m
  let p := memReadN m1 14
  (14 ≤ p.1.length &&
     classicMagics.any (fun mg => listPrefix mg p.1) &&
     listPrefix rLauMagic (p.1.drop 10), p.2)

/-- Effect of munbox_new_hqx_layer probing a memory input: open(FIRST),
read up to 256 bytes, search for the signature in the NUL-terminated
buffer, then rewind with open(FIRST) unconditionally. -/
def hqxFactoryProbe (m : MemSt) : Bool × MemSt :=
  let m1 := memOpenFirst m
  let p := memReadN m1 256
  (40 ≤ p.1.length && listInfix binhexSig (truncAtZero (p.1.take 255)), memOpenFirst p.2)

/-- Effect of munbox_new_bin_layer probing a memory input: open(FIRST),
read the 128-byte header (on short input read_fully consumes everything
and fails), rewind with open(FIRST), then validate. -/
def binFactoryProbe (m : MemSt) : Bool × MemSt :=
  let m1 := memOpenFirst m
  if m1.bytes.length < 128 then
    (false, memOpenFirst { m1 with pos := m1.bytes.length })
  else
    let p := memReadN m1 128
    (binHeaderOk p.1, memOpenFirst p.2)

/-- Effect of cpt_probe_header on a memory input: open(FIRST), read 8
bytes, rewind with open(FIRST) (both on the short-read path and before the
magic checks), then test the magic and directory offset. -/
def cptFactoryProbe (m : MemSt) : Bool × MemSt :=
  let m1 := memOpenFirst m
  let p := memReadN m1 8
  if p.1.length < 8 then (false, memOpenFirst p.2)
  else
    (p.1.getD 0 0 == 0x01 && p.1.getD 1 0 == 0x01 &&
       (let off := loadBE32 p.1 4
        !(off < 8) && !(0x10000000 < off)), memOpenFirst p.2)

/-! ## Extraction callback sequencing in munbox_process (C10) -/

/-- A fork as emitted by the final layer's open/read iteration. -/
structure PFork where
  name : String
  isRsrc : Bool
  content : List Nat
deriving DecidableEq

/-- Callback events issued by munbox_process. -/
inductive PEvent
  | newFile (name : String)
  | writeData (c : List Nat)
  | writeRsrc (c : List Nat)
  | endFile
deriving DecidableEq

/-- Delivery of one fork's content (munbox.c lines 303-314): resource forks
always go to write_resource_fork; other forks go to write_data only when
non-empty. -/
def forkWriteEvents (f : PFork) : List PEvent :=
  if f.isRsrc then [PEvent.writeRsrc f.content]
  else if f.content.isEmpty then [] else [PEvent.writeData f.content]

/-- The iteration loop of munbox_process (lines 257-323) with all callbacks
succeeding: current_name starts empty; a new file is started whenever
current_name is empty or differs from the fork's filename, closing the
previous file first; after the loop the open file is closed.  Filenames are
modelled as strings (the C buffers hold at most 255 bytes, so strncmp with
bound 256 is plain equality). -/
def processLoop : String → Bool → List PFork → List PEvent
  | _, active, [] => if active then [PEvent.endFile] else []
  | cur, active, f :: rest =>
    if cur == "" || cur != f.name then
      (if active then [PEvent.endFile] else []) ++
        (PEvent.newFile f.name :: (forkWriteEvents f ++ processLoop f.name true rest))
    else
      forkWriteEvents f ++ processLoop cur active rest

/-- Callback event sequence produced by munbox_process for a fork list. -/
def munboxProcessEvents (forks : List PFork) : List PEvent :=
  processLoop "" false forks

/-- Specification-side event sequence (per the claim): one new_file per
maximal run of consecutive forks with equal filenames, the forks' write
events inside the run, and one end_file closing each run.  Continuation
after the first fork of a run. -/
def runEventsGo : String → List PFork → List PEvent
  | _, [] => [PEvent.endFile]
  | cur, f :: rest =>
    if f.name == cur then forkWriteEvents f ++ runEventsGo cur rest
    else
      PEvent.endFile :: PEvent.newFile f.name ::
        (forkWriteEvents f ++ runEventsGo f.name rest)

/-- Specification-side event sequence for a whole fork list. -/
def runEvents : List PFork → List PEvent
  | [] => []
  | f :: rest => PEvent.newFile f.name :: (forkWriteEvents f ++ runEventsGo f.name rest)

/-! ## Compact Pro LZH + RLE decoding (cpt.c)

The bit reader is modelled over the full byte sequence the supplier will
deliver (cpt_br_refill only buffers those bytes incrementally, so the
observable bit stream is the same).  The prefix decoder is modelled with
both the explicit binary tree and the tbits-wide acceleration table, as in
cpt_pfx_build / cpt_pfx_next. -/

/-- Bit reader state (cpt_br_t over the supplier's byte sequence). -/
structure CptBr where
  bytes : List Nat
  bitpos : Nat
deriving DecidableEq

/-- cpt_br_bits_left: bits still available. -/
def cptBrBitsLeft (br : CptBr) : Nat := br.bytes.length * 8 - br.bitpos

/-- One bit of the stream, MSB-first within each byte; bits past the end of
the input read as zero (cpt_br_peek pads the accumulator with zeros). -/
def cptBrBitAt (br : CptBr) (i : Nat) : Nat :=
  if i / 8 < br.bytes.length then (br.bytes.getD (i / 8) 0 >>> (7 - i % 8)) &&& 1 else 0

/-- cpt_br_peek: read n bits MSB-first from the current position without
consuming them. -/
def cptBrPeek (br : CptBr) (n : Nat) : Nat :=
  (List.range n).foldl (fun acc j => acc * 2 + cptBrBitAt br (br.bitpos + j)) 0

/-- cpt_br_skip: advance the bit position. -/
def cptBrSkip (br : CptBr) (n : Nat) : CptBr := { br with bitpos := br.bitpos + n }

/-- cpt_br_get: read and consume n bits. -/
def cptBrGet (br : CptBr) (n : Nat) : Nat × CptBr := (cptBrPeek br n, cptBrSkip br n)

/-- Prefix decoder (cpt_pfx_t): acceleration table of 2^tbits entries
(prefix length, value) and the explicit binary tree with -1 and -2 marking
absent children. -/
structure CptPfx where
  tbits : Nat
  tab : List (Nat × Nat)
  tree : List (Int × Int)
deriving DecidableEq

/-- Child pointer of a tree node for a bit (b0/b1 in cpt_pfx_t). -/
def cptTreeChild (tree : List (Int × Int)) (node : Nat) (bit : Nat) : Int :=
  let p := tree.getD node (-1, -2)
  if bit == 1 then p.2 else p.1

/-- Update a child pointer of a tree node. -/
def cptTreeSetChild (tree : List (Int × Int)) (node : Nat) (bit : Nat) (v : Int) :
    List (Int × Int) :=
  let p := tree.getD node (-1, -2)
  tree.set node (if bit == 1 then (p.1, v) else (v, p.2))

/-- cpt_is_leaf: a node is a leaf iff both children are equal. -/
def cptIsLeaf (tree : List (Int × Int)) (node : Nat) : Bool :=
  (tree.getD node (-1, -2)).1 == (tree.getD node (-1, -2)).2

/-- Code-insertion walk of cpt_pfx_build: follow the bits of the code from
the most significant of its l bits, appending fresh nodes (cpt_new_node)
where a child is absent; returns the updated tree and the final node. -/
def cptInsertGo : List (Int × Int) → Nat → Nat → Nat → List (Int × Int) × Nat
  | tree, node, _, 0 => (tree, node)
  | tree, node, code, k + 1 =>
    let bit := (code >>> k) &&& 1
    let next := cptTreeChild tree node bit
    if next < 0 then
      let nn := tree.length
      let tree1 := tree ++ [(-1, -2)]
      let tree2 := cptTreeSetChild tree1 node bit (Int.ofNat nn)
      cptInsertGo tree2 nn code k
    else
      cptInsertGo tree next.toNat code k

/-- Insert one canonical code of length l for symbol sym and make its final
node a leaf carrying the symbol. -/
def cptInsertCode (tree : List (Int × Int)) (code l sym : Nat) : List (Int × Int) :=
  let p := cptInsertGo tree 0 code l
  p.1.set p.2 (Int.ofNat sym, Int.ofNat sym)

/-- Accumulator of the code-assignment loop in cpt_pfx_build. -/
structure CptBuildSt where
  tree : List (Int × Int)
  code : Nat
  left : Nat
  minl : Int
  maxl : Int

/-- Inner loop of cpt_pfx_build for one code length l: scan the symbols in
order and insert those whose length equals l, stopping once left reaches
zero. -/
def cptBuildLevel (lens : List Int) (count l : Nat) (st : CptBuildSt) : CptBuildSt :=
  (List.range count).foldl
    (fun st i =>
      if st.left == 0 then st
      else if lens.getD i 0 == Int.ofNat l then
        { tree := cptInsertCode st.tree st.code l i,
          code := st.code + 1,
          left := st.left - 1,
          minl := if Int.ofNat l < st.minl then Int.ofNat l else st.minl,
          maxl := if st.maxl < Int.ofNat l then Int.ofNat l else st.maxl }
      else st)
    st

/-- Acceleration-table walk of cpt_pfx_build, reparameterised by the
remaining depth budget rem = tbits - depth: a leaf yields (depth, symbol);
exhausting the budget yields (tbits + 1, node) for a continuation in the
tree; an absent child yields (0, 0). -/
def cptTabWalk (tree : List (Int × Int)) (tbits i : Nat) : Nat → Nat → Nat × Nat
  | rem, node =>
    if cptIsLeaf tree node then (tbits - rem, (tree.getD node (-1, -2)).1.toNat)
    else
      match rem with
      | 0 => (tbits + 1, node)
      | r + 1 =>
        let bit := (i >>> r) &&& 1
        let next := cptTreeChild tree node bit
        if next < 0 then (0, 0)
        else cptTabWalk tree tbits i r next.toNat

/-- cpt_pfx_build: assign canonical codes level by level (code is doubled
after each length), then build the 2^tbits acceleration table, where
tbits = 10 if no code was assigned (maxl < minl), else min(maxl, 10). -/
def cptPfxBuild (lens : List Int) (count maxLen : Nat) : CptPfx :=
  let st0 : CptBuildSt :=
    { tree := [(-1, -2)], code := 0, left := count, minl := 0x7fffffff, maxl := 0 }
  let stF := (List.range maxLen).foldl
    (fun st lm1 =>
      let st1 := cptBuildLevel lens count (lm1 + 1) st
      { st1 with code := st1.code * 2 })
    st0
  let tbits : Nat :=
    if stF.maxl < stF.minl then 10 else if (10 : Int) ≤ stF.maxl then 10 else stF.maxl.toNat
  { tbits := tbits,
    tab := (List.range (2 ^ tbits)).map (fun i => cptTabWalk stF.tree tbits i tbits 0),
    tree := stF.tree }

/-- Tree-descent continuation of cpt_pfx_next for codes longer than tbits.
The fuel bound (tree size + 1) is unreachable for the acyclic trees
cpt_pfx_build produces, whose child indices strictly increase. -/
def cptPfxWalkTree (pc : CptPfx) : Nat → Nat → CptBr → Option (Nat × CptBr)
  | 0, _, _ => none
  | fuel + 1, node, br =>
    if cptIsLeaf pc.tree node then some ((pc.tree.getD node (-1, -2)).1.toNat, br)
    else if cptBrBitsLeft br == 0 then none
    else
      let p := cptBrGet br 1
      let next := cptTreeChild pc.tree node p.1
      if next < 0 then none
      else cptPfxWalkTree pc fuel next.toNat p.2

/-- cpt_pfx_next: decode one symbol, preferring the acceleration table;
none models the -1 error/EOF return. -/
def cptPfxNext (pc : CptPfx) (br : CptBr) : Option (Nat × CptBr) :=
  if cptBrBitsLeft br == 0 then none
  else
    let bits := cptBrPeek br pc.tbits
    let e := pc.tab.getD bits (0, 0)
    if e.1 == 0 then none
    else if e.1 ≤ pc.tbits then some (e.2, cptBrSkip br e.1)
    else cptPfxWalkTree pc (pc.tree.length + 1) e.2 (cptBrSkip br pc.tbits)

/-- Read one nibble-packed code-length array of cpt_lzh_build_tables:
8-bit count, then count bytes carrying two 4-bit lengths each,
high nibble first, into an array of arrSize entries initialised to 0. -/
def cptReadLens (br : CptBr) (arrSize : Nat) : Option (List Int × CptBr) :=
  if cptBrBitsLeft br < 8 then none
  else
    let p := cptBrGet br 8
    if arrSize < p.1 * 2 then none
    else
      (List.range p.1).foldl
        (fun acc i =>
          match acc with
          | none => none
          | some (lens, br2) =>
            if cptBrBitsLeft br2 < 8 then none
            else
              let q := cptBrGet br2 8
              some ((lens.set (2 * i) (Int.ofNat (q.1 >>> 4))).set (2 * i + 1)
                      (Int.ofNat (q.1 &&& 0xf)), q.2))
        (some (List.replicate arrSize (0 : Int), p.2))

/-- cpt_lzh_build_tables: read the literal (256), length (64) and offset
(128) code-length arrays and build the three prefix decoders. -/
def cptLzhBuildTables (br : CptBr) : Option ((CptPfx × CptPfx × CptPfx) × CptBr) :=
  match cptReadLens br 256 with
  | none => none
  | some (lens1, br1) =>
    match cptReadLens br1 64 with
    | none => none
    | some (lens2, br2) =>
      match cptReadLens br2 128 with
      | none => none
      | some (lens3, br3) =>
        some ((cptPfxBuild lens1 256 15, cptPfxBuild lens2 64 15, cptPfxBuild lens3 128 15), br3)

/-- Streaming LZH decoder state (cpt_lzh_supplier_t + cpt_lzh_core_t): the
bit reader, the 8192-byte window, output position, the block accounting
counters, the three prefix decoders with their built flag, and the pending
bytes of a match in progress. -/
structure CptLzhSt where
  br : CptBr
  win : List Nat
  pos : Nat
  blockcount : Nat
  blockstart : Nat
  lit : CptPfx
  lenp : CptPfx
  offp : CptPfx
  built : Bool
  pend : List Nat
deriving DecidableEq

/-- An unbuilt prefix decoder (all-zero state from memset). -/
def cptEmptyPfx : CptPfx := { tbits := 0, tab := [], tree := [] }

/-- cpt_lzhs_init_from_supplier over a byte sequence: zeroed window and
counters, tables not yet built. -/
def cptLzhsInit (bytes : List Nat) : CptLzhSt :=
  { br := { bytes := bytes, bitpos := 0 }, win := List.replicate 8192 0, pos := 0,
    blockcount := 0, blockstart := 0, lit := cptEmptyPfx, lenp := cptEmptyPfx,
    offp := cptEmptyPfx, built := false, pend := [] }

/-- Window index (pos - off) & 8191, with the size_t wraparound of the C
subtraction (8192 divides 2^64, so the masked result is the integer value
of pos - off modulo 8192). -/
def cptWinIdx (pos off : Nat) : Nat := (((pos : Int) - (off : Int)) % 8192).toNat

/-- cpt_lzhs_next: produce the next decompressed byte.  Pending match bytes
are drained first (writing them into the window); at a block boundary
(accounting counter at 0x1FFF0) the reader is byte-aligned, 16 or 24 bits
are skipped depending on the parity of the bytes consumed since block
start, and the tables are rebuilt.  A literal unit (flag 1) emits one
symbol from the literal tree; a match unit (flag 0) decodes a length and an
offset and emits the first copied byte, queueing the rest; all failure
paths return none, the C function's EOF result 0 (it never returns an
error). -/
def cptLzhsNext (s : CptLzhSt) : Option (Nat × CptLzhSt) :=
  match s.pend with
  | b :: rest =>
    some (b, { s with pend := rest, win := s.win.set (s.pos % 8192) b, pos := s.pos + 1 })
  | [] =>
    let s1 :=
      if 0x1fff0 ≤ s.blockcount then
        let rem := s.br.bitpos % 8
        let brA := if rem != 0 then cptBrSkip s.br (8 - rem) else s.br
        let consumed := brA.bitpos / 8 - s.blockstart
        let brB := if consumed % 2 == 1 then cptBrSkip brA 24 else cptBrSkip brA 16
        { s with br := brB, blockcount := 0, blockstart := brB.bitpos / 8, built := false }
      else s
    let s2opt :=
      if s1.built then some s1
      else
        match cptLzhBuildTables s1.br with
        | none => none
        | some ((lit, lenp, offp), br1) =>
          some { s1 with
                   br := br1, lit := lit, lenp := lenp, offp := offp, built := true,
                   blockcount := 0, blockstart := br1.bitpos / 8 }
    match s2opt with
    | none => none
    | some s2 =>
      if cptBrBitsLeft s2.br == 0 then none
      else
        let pf := cptBrGet s2.br 1
        if pf.1 == 1 then
          match cptPfxNext s2.lit pf.2 with
          | none => none
          | some (sym, br2) =>
            let b := sym % 256
            some (b, { s2 with
                         br := br2, blockcount := s2.blockcount + 2,
                         win := s2.win.set (s2.pos % 8192) b, pos := s2.pos + 1 })
        else
          match cptPfxNext s2.lenp pf.2 with
          | none => none
          | some (lsym, br2) =>
            match cptPfxNext s2.offp br2 with
            | none => none
            | some (osym, br3) =>
              let pl := cptBrGet br3 6
              let off := osym * 64 + pl.1
              if lsym == 0 then none
              else
                let start := cptWinIdx s2.pos off
                let first := s2.win.getD start 0
                let win1 := s2.win.set (s2.pos % 8192) first
                let pend1 := (List.range (lsym - 1)).map
                  (fun i => win1.getD ((start + i + 1) % 8192) 0)
                some (first, { s2 with
                                 br := pl.2, blockcount := s2.blockcount + 3,
                                 win := win1, pos := s2.pos + 1, pend := pend1 })

/-- RLE decoder state of cpt.c (cpt_rle_stream_t); rep is an int in C and
becomes negative when a count byte of 1 is seen, so it is modelled as an
integer. -/
structure CptRleSt where
  rep : Int
  saved : Nat
  half : Bool
deriving DecidableEq

/-- cpt_rle_stream_init. -/
def cptRleInit : CptRleSt := { rep := 0, saved := 0, half := false }

/-- cpt_rle_stream_read over a pull source: produce up to the requested
number of bytes; a source EOF returns the bytes produced so far.  Every
loop iteration of the C function either emits one byte or returns, so the
recursion is on the remaining output budget. -/
def cptRleRead {σ : Type} (next : σ → Option (Nat × σ)) :
    CptRleSt → σ → Nat → List Nat × CptRleSt × σ
  | st, src, 0 => ([], st, src)
  | st, src, k + 1 =>
    if st.rep != 0 then
      let r := cptRleRead next { st with rep := st.rep - 1 } src k
      (st.saved % 256 :: r.1, r.2)
    else
      let step : Option (Nat × CptRleSt × σ) :=
        if st.half then some (0x81, { st with half := false }, src)
        else
          match next src with
          | none => none
          | some (b, src1) => some (b, st, src1)
      match step with
      | none => ([], st, src)
      | some (b, stA, srcA) =>
        if b == 0x81 then
          match next srcA with
          | none => ([], stA, srcA)
          | some (b2, srcB) =>
            if b2 == 0x82 then
              match next srcB with
              | none => ([], stA, srcB)
              | some (n, srcC) =>
                if n != 0 then
                  let r := cptRleRead next { stA with rep := Int.ofNat n - 2 } srcC k
                  (stA.saved % 256 :: r.1, r.2)
                else
                  let r := cptRleRead next { stA with saved := 0x82, rep := 1 } srcC k
                  (0x81 :: r.1, r.2)
            else if b2 == 0x81 then
              let r := cptRleRead next { stA with half := true, saved := 0x81 } srcB k
              (0x81 :: r.1, r.2)
            else
              let r := cptRleRead next { stA with saved := b2, rep := 1 } srcB k
              (0x81 :: r.1, r.2)
        else
          let r := cptRleRead next { stA with saved := b } srcA k
          (b :: r.1, r.2)

/-- Per-fork streaming state (cpt_fork_stream_t). -/
structure CptForkSt (σ : Type) where
  rle : CptRleSt
  src : σ
  outRemaining : Nat
  finished : Bool

/-- cpt_fork_stream_init_*: fresh RLE state over the supplier, expected
output length, finished immediately when it is zero. -/
def cptForkStreamInit {σ : Type} (src : σ) (outLen : Nat) : CptForkSt σ :=
  { rle := cptRleInit, src := src, outRemaining := outLen, finished := outLen == 0 }

/-- cpt_fork_stream_read: cap the request at the remaining output, pull
through the RLE decoder, and mark the stream finished on a zero-byte
result or when the expected length has been produced. -/
def cptForkStreamRead {σ : Type} (next : σ → Option (Nat × σ)) (fs : CptForkSt σ)
    (maxOut : Nat) : List Nat × CptForkSt σ :=
  if fs.finished || fs.outRemaining == 0 then ([], fs)
  else
    let m := min maxOut fs.outRemaining
    let r := cptRleRead next fs.rle fs.src m
    let rem := fs.outRemaining - r.1.length
    (r.1, { rle := r.2.1, src := r.2.2, outRemaining := rem,
            finished := r.1.length == 0 || rem == 0 })

/-- cpt_layer_read: the fork-stream result count is returned as is (the
count is never negative, so the MUNBOX_ERROR branch of the C function is
unreachable through this path). -/
def cptLayerReadCount {σ : Type} (next : σ → Option (Nat × σ)) (fs : CptForkSt σ)
    (cnt : Nat) : Int × CptForkSt σ :=
  let r := cptForkStreamRead next fs cnt
  (Int.ofNat r.1.length, r.2)

/-! ## Specification-side predicates and concrete inputs used by the claims -/

/-- The MacBinary acceptance conditions exactly as the specification states
them (byte 0 = 0, byte 74 = 0, name length in 1..63, CRC over bytes 0..123
matching the stored value at 124..125 or byte 82 = 0) — without the fork
length bound the code additionally imposes. -/
def binClaimHeaderOk (hdr : List Nat) : Bool :=
  hdr.getD 0 0 == 0 && hdr.getD 74 0 == 0 &&
  decide (1 ≤ hdr.getD 1 0) && decide (hdr.getD 1 0 ≤ 63) &&
  (ccittUpdate 0 (hdr.take 124) == loadBE16 hdr 124 || hdr.getD 82 0 == 0)

/-- A minimal classic StuffIt archive: magic, zero entries, "rLau", padded
to the 22-byte archive header. -/
def sitMinArchive : List Nat :=
  strBytes "SIT!" ++ [0, 0, 0, 0, 0, 0] ++ strBytes "rLau" ++ List.replicate 8 0

/-- A minimal Compact Pro archive: magic 0x01, volume 0x01, directory
offset 8, then a directory with CRC 0, zero entries and no comment. -/
def cptMinArchive : List Nat := [1, 1, 0, 0, 0, 0, 0, 8, 0, 0, 0, 0, 0, 0, 0]

/-- An 80-byte input carrying a valid SIT5 signature ("StuffIt (c)1997-",
four filler bytes, the Aladdin URL at offset 20, two filler bytes). -/
def sit5CexInput : List Nat :=
  sit5SigHead ++ strBytes "1998" ++ sit5SigAladdin ++ strBytes "00"

/-- A 128-byte MacBinary header whose bytes satisfy every condition of
claim C6 (version 0, byte 74 = 0, name length 1, byte 82 = 0 so the CRC is
not binding) but whose data-fork length field is 0xFFFFFFFF. -/
def binCexHeader : List Nat :=
  (((((((List.replicate 128 0).set 1 1).set 2 65).set 83 255).set 84 255).set 85 255).set 86 255)

/-- A 20-byte memory input (bytes 0..19) that no factory recognises. -/
def memCexInput : List Nat := List.range 20

/-- RLE90 input on which the SIT and HQX decoders disagree: escaped
literal 0x90 followed by an escape of count 2. -/
def rle90CexDesc : SitForkDesc :=
  { uncompLen := 2, crc := 0, method := 1, comp := [0x90, 0x00, 0x90, 0x02] }

/-- The stream state sit_layer_open builds for rle90CexDesc. -/
def rle90CexStream : SitStream :=
  { kind := SKind.rle90, src := [0x90, 0x00, 0x90, 0x02], srcPos := 0, outRem := 2,
    skipCrc := false, crcAccum := 0, lastByte := 0, repRem := 0, inner := [] }

/-- Copy-method fork used to witness the CRC check: three bytes with their
correct CRC. -/
def sitC3Desc : SitForkDesc :=
  { uncompLen := 3, crc := sitCrcUpdate 0 [1, 2, 3], method := 0, comp := [1, 2, 3] }

/-- The stream state sit_layer_open builds for sitC3Desc. -/
def sitC3Stream : SitStream :=
  { kind := SKind.copy, src := [1, 2, 3], srcPos := 0, outRem := 3,
    skipCrc := false, crcAccum := 0, lastByte := 0, repRem := 0, inner := [] }

/-- The stream state after sitC3Stream has been drained. -/
def sitC3StreamEnd : SitStream :=
  { sitC3Stream with srcPos := 3, outRem := 0, crcAccum := sitCrcUpdate 0 [1, 2, 3] }

/-- A Compact Pro LZH stream whose three code-length tables each assign a
single 1-bit code (to symbol 0), followed by a match unit whose decoded
length symbol is 0: bytes 01 10 01 10 01 10 00 00. -/
def cptLzhCex : List Nat := [0x01, 0x10, 0x01, 0x10, 0x01, 0x10, 0x00, 0x00]

/-- Two consecutive forks with the empty filename and distinct non-empty
contents. -/
def c10CexForks : List PFork :=
  [{ name := "", isRsrc := false, content := [1] },
   { name := "", isRsrc := false, content := [2] }]

/-- The LZH decoder state over cptLzhCex just after its tables have been
built (as the first cpt_lzhs_next call builds them): the bit reader stands
at bit 48, each of the three trees holds the single symbol 0 with code
length 1. -/
def cptLzhCexBuilt : CptLzhSt :=
  match cptLzhBuildTables { bytes := cptLzhCex, bitpos := 0 } with
  | none => cptLzhsInit cptLzhCex
  | some ((lit, lenp, offp), br1) =>
    { cptLzhsInit cptLzhCex with
        br := br1, lit := lit, lenp := lenp, offp := offp, built := true,
        blockcount := 0, blockstart := br1.bitpos / 8 }

/-- The code-length array cpt_lzh_build_tables reads from cptLzhCex for each
of its three trees: one code of length 1 for symbol 0, all other entries 0. -/
def cexLens (n : Nat) : List Int := ((List.replicate n 0).set 0 1).set 1 0

/-- The prefix tree built from cexLens: the root's 0-child is the leaf for
symbol 0, its 1-child is unassigned. -/
def cexTree : List (Int × Int) := [(1, -2), (0, 0)]

/-- The full prefix decoder built from cexLens: one-bit acceleration table
whose entry 0 decodes symbol 0 with length 1 and whose entry 1 is the
error/absent marker. -/
def cexPfx : CptPfx := { tbits := 1, tab := [(1, 0), (0, 0)], tree := cexTree }

/-! ## Helper lemmas -/

/-- CRC accumulation splits over list append. -/
theorem sitCrcUpdate_append (c : Nat) (a b : List Nat) :
    sitCrcUpdate c (a ++ b) = sitCrcUpdate (sitCrcUpdate c a) b := by
  simp [sitCrcUpdate, List.foldl_append]

/-- sit_stream_fill preserves skip_crc and accumulates the CRC of exactly
the bytes it produces. -/
theorem sitStreamFill_crcInv :
    ∀ μ (ss : SitStream) (cap : Nat), cap + (ss.src.length - ss.srcPos) ≤ μ →
      ∀ out ss2, sitStreamFill ss cap = some (out, ss2) →
        ss2.skipCrc = ss.skipCrc ∧
        (ss.skipCrc = false → ss2.crcAccum = sitCrcUpdate ss.crcAccum out) := by
  intro μ
  induction μ with
  | zero =>
    intro ss cap hμ out ss2 h
    rw [sitStreamFill.eq_def] at h
    split at h
    · simp only [Option.some.injEq, Prod.mk.injEq] at h
      obtain ⟨h1, h2⟩ := h; subst h1; subst h2
      exact ⟨rfl, fun _ => by simp [sitCrcUpdate]⟩
    · split at h
      · simp only [Option.some.injEq, Prod.mk.injEq] at h
        obtain ⟨h1, h2⟩ := h; subst h1; subst h2
        exact ⟨rfl, fun _ => by simp [sitCrcUpdate]⟩
      · omega
  | succ μ ih =>
    intro ss cap hμ out ss2 h
    rw [sitStreamFill.eq_def] at h
    split at h
    · simp only [Option.some.injEq, Prod.mk.injEq] at h
      obtain ⟨h1, h2⟩ := h; subst h1; subst h2
      exact ⟨rfl, fun _ => by simp [sitCrcUpdate]⟩
    · split at h
      · simp only [Option.some.injEq, Prod.mk.injEq] at h
        obtain ⟨h1, h2⟩ := h; subst h1; subst h2
        exact ⟨rfl, fun _ => by simp [sitCrcUpdate]⟩
      · split at h
        · -- copy
          simp only [] at h
          split at h
          · simp at h
          · split at h
            · simp at h
            · rename_i hn out1 ss21 heq
              simp only [Option.some.injEq, Prod.mk.injEq] at h
              obtain ⟨h1, h2⟩ := h; subst h1; subst h2
              obtain ⟨hskip, hcrc⟩ := ih _ _ (by simp; omega) _ _ heq
              refine ⟨hskip, fun hsf => ?_⟩
              rw [sitCrcUpdate_append]
              have h3 := hcrc hsf
              simp only [sitCrcMaybe, hsf, if_neg] at h3
              simpa using h3
        · -- rle90
          simp only [] at h
          split at h
          · split at h
            · simp at h
            · rename_i hrep out1 ss21 heq
              simp only [Option.some.injEq, Prod.mk.injEq] at h
              obtain ⟨h1, h2⟩ := h; subst h1; subst h2
              obtain ⟨hskip, hcrc⟩ := ih _ _ (by simp; omega) _ _ heq
              refine ⟨hskip, fun hsf => ?_⟩
              have h3 := hcrc hsf
              simp only [sitCrcMaybe, hsf, if_neg] at h3
              rw [show (ss.lastByte :: out1) = [ss.lastByte] ++ out1 from rfl, sitCrcUpdate_append]
              simpa using h3
          · split at h
            · simp only [Option.some.injEq, Prod.mk.injEq] at h
              obtain ⟨h1, h2⟩ := h; subst h1; subst h2
              exact ⟨rfl, fun _ => by simp [sitCrcUpdate]⟩
            · split at h
              · split at h
                · simp only [Option.some.injEq, Prod.mk.injEq] at h
                  obtain ⟨h1, h2⟩ := h; subst h1; subst h2
                  exact ⟨rfl, fun _ => by simp [sitCrcUpdate]⟩
                · split at h
                  · split at h
                    · simp at h
                    · rename_i hn0 out1 ss21 heq
                      simp only [Option.some.injEq, Prod.mk.injEq] at h
                      obtain ⟨h1, h2⟩ := h; subst h1; subst h2
                      obtain ⟨hskip, hcrc⟩ := ih _ _ (by simp; omega) _ _ heq
                      refine ⟨hskip, fun hsf => ?_⟩
                      have h3 := hcrc hsf
                      simp only [sitCrcMaybe, hsf, if_neg] at h3
                      rw [show ((144 : Nat) :: out1) = [144] ++ out1 from rfl, sitCrcUpdate_append]
                      simpa using h3
                  · split at h
                    · obtain ⟨hskip, hcrc⟩ := ih _ _ (by simp; omega) _ _ h
                      exact ⟨hskip, fun hsf => by simpa using hcrc hsf⟩
                    · obtain ⟨hskip, hcrc⟩ := ih _ _ (by simp; omega) _ _ h
                      exact ⟨hskip, fun hsf => by simpa using hcrc hsf⟩
              · split at h
                · simp at h
                · rename_i hb out1 ss21 heq
                  simp only [Option.some.injEq, Prod.mk.injEq] at h
                  obtain ⟨h1, h2⟩ := h; subst h1; subst h2
                  obtain ⟨hskip, hcrc⟩ := ih _ _ (by simp; omega) _ _ heq
                  refine ⟨hskip, fun hsf => ?_⟩
                  have h3 := hcrc hsf
                  simp only [sitCrcMaybe, hsf, if_neg] at h3
                  rw [show (ss.src.getD ss.srcPos 0 :: out1) = [ss.src.getD ss.srcPos 0] ++ out1
                        from rfl, sitCrcUpdate_append]
                  simpa using h3
        · -- lzw
          simp only [] at h
          split at h
          · simp only [Option.some.injEq, Prod.mk.injEq] at h
            obtain ⟨h1, h2⟩ := h; subst h1; subst h2
            exact ⟨rfl, fun _ => by simp [sitCrcUpdate]⟩
          · split at h
            · simp at h
            · rename_i hn out1 ss21 heq
              simp only [Option.some.injEq, Prod.mk.injEq] at h
              obtain ⟨h1, h2⟩ := h; subst h1; subst h2
              obtain ⟨hskip, hcrc⟩ := ih _ _ (by simp; omega) _ _ heq
              refine ⟨hskip, fun hsf => ?_⟩
              rw [sitCrcUpdate_append]
              have h3 := hcrc hsf
              simp only [sitCrcMaybe, hsf, if_neg] at h3
              simpa using h3
        · -- sit13
          simp only [] at h
          split at h
          · simp only [Option.some.injEq, Prod.mk.injEq] at h
            obtain ⟨h1, h2⟩ := h; subst h1; subst h2
            exact ⟨rfl, fun _ => by simp [sitCrcUpdate]⟩
          · split at h
            · simp at h
            · rename_i hn out1 ss21 heq
              simp only [Option.some.injEq, Prod.mk.injEq] at h
              obtain ⟨h1, h2⟩ := h; subst h1; subst h2
              obtain ⟨hskip, hcrc⟩ := ih _ _ (by simp; omega) _ _ heq
              refine ⟨hskip, fun hsf => ?_⟩
              rw [sitCrcUpdate_append]
              have h3 := hcrc hsf
              simp only [sitCrcMaybe, hsf, if_neg] at h3
              simpa using h3
        · -- sit15
          simp only [] at h
          split at h
          · simp only [Option.some.injEq, Prod.mk.injEq] at h
            obtain ⟨h1, h2⟩ := h; subst h1; subst h2
            exact ⟨rfl, fun _ => by simp [sitCrcUpdate]⟩
          · split at h
            · simp at h
            · rename_i hn out1 ss21 heq
              simp only [Option.some.injEq, Prod.mk.injEq] at h
              obtain ⟨h1, h2⟩ := h; subst h1; subst h2
              obtain ⟨hskip, hcrc⟩ := ih _ _ (by simp; omega) _ _ heq
              refine ⟨hskip, fun hsf => ?_⟩
              rw [sitCrcUpdate_append]
              have h3 := hcrc hsf
              simp only [sitCrcMaybe, hsf, if_neg] at h3
              simpa using h3

/-- Facts recovered from a cons-shaped drop. -/
theorem drop_cons_facts (src : List Nat) (p b : Nat) (rest : List Nat)
    (h : src.drop p = b :: rest) :
    src.getD p 0 = b ∧ src.drop (p + 1) = rest ∧ p < src.length := by
  have hlt : p < src.length := by
    by_contra hge
    rw [List.drop_eq_nil_of_le (by omega)] at h
    exact List.noConfusion h
  refine ⟨?_, ?_, hlt⟩
  · have h1 : src[p]? = (src.drop p).head? := by
      rw [List.head?_drop]
    rw [List.getD_eq_getD_get?, List.get?_eq_getElem?, h1, h]
    rfl
  · have h2 : src.drop (p + 1) = (src.drop p).tail := by
      rw [← List.drop_drop, List.drop_one]
    rw [h2, h]
    rfl

/-- A well-formed RLE90 stream stays well formed after a literal byte. -/
theorem rleCountsOk_tail (b : Nat) (rest : List Nat)
    (hok : rleCountsOk (b :: rest) = true) (hb : ¬ b = 144) :
    rleCountsOk rest = true := by
  cases rest with
  | nil => rfl
  | cons n rest2 =>
    simp only [rleCountsOk] at hok ⊢
    rcases eq_or_ne n 144 with hn | hn
    · simpa [hb, hn] using hok
    · simpa [hb, hn] using hok

/-- Equivalence engine for claim C4: on a stream whose escape counts are
all at least 2, the BinHex RLE90 run and the SIT method-1 RLE90 stream
produce identical bytes, given equal last-byte and repeat state. -/
theorem rle90_equiv_aux :
    ∀ μ (src : List Nat) (p cap last rc crc : Nat) (skip : Bool) (out : List Nat)
      (st2 : HqxRle) (inp2 : List Nat),
      cap + (src.length - p) ≤ μ →
      rleCountsOk (src.drop p) = true →
      hqxRleRun ⟨rc, last⟩ (src.drop p) cap = some (out, st2, inp2) →
      (sitStreamFill
        { kind := SKind.rle90, src := src, srcPos := p, outRem := cap, skipCrc := skip,
          crcAccum := crc, lastByte := last, repRem := rc, inner := [] } cap).map Prod.fst
        = some out := by
  intro μ
  induction μ with
  | zero =>
    intro src p cap last rc crc skip out st2 inp2 hμ hok hrun
    have hcap : cap = 0 := by omega
    subst hcap
    simp only [hqxRleRun, Option.some.injEq, Prod.mk.injEq] at hrun
    obtain ⟨h1, _⟩ := hrun
    subst h1
    rw [sitStreamFill.eq_def]
    simp
  | succ μ ih =>
    intro src p cap last rc crc skip out st2 inp2 hμ hok hrun
    match cap with
    | 0 =>
      simp only [hqxRleRun, Option.some.injEq, Prod.mk.injEq] at hrun
      obtain ⟨h1, _⟩ := hrun
      subst h1
      rw [sitStreamFill.eq_def]
      simp
    | k + 1 =>
      match rc with
      | r + 1 =>
        -- repeat in progress: both sides emit last
        rw [hqxRleRun] at hrun
        simp only [hqxDecodeOne] at hrun
        split at hrun
        · exact absurd hrun (by simp)
        · rename_i out1 st21 inp21 heq
          simp only [Option.some.injEq, Prod.mk.injEq] at hrun
          obtain ⟨h1, h2⟩ := hrun
          subst h1
          have hih := ih src p k last r (sitCrcMaybe skip crc [last]) skip out1 st21 inp21
            (by omega) hok heq
          obtain ⟨⟨out1x, ss2x⟩, hfill, houtx⟩ := Option.map_eq_some'.mp hih
          simp only at houtx
          subst houtx
          rw [sitStreamFill.eq_def]
          simp [hfill]
      | 0 =>
        rw [hqxRleRun] at hrun
        cases hd : src.drop p with
        | nil =>
          rw [hd] at hrun
          simp [hqxDecodeOne] at hrun
        | cons b rest =>
          rw [hd] at hrun hok
          obtain ⟨hgetD, hdrop1, hlt⟩ := drop_cons_facts src p b rest hd
          by_cases hb : b = 144
          · subst hb
            cases rest with
            | nil => simp [rleCountsOk] at hok
            | cons n rest2 =>
              have hok2 : 2 ≤ n ∧ rleCountsOk rest2 = true := by
                simpa [rleCountsOk] using hok
              obtain ⟨hgetD2, hdrop2, hlt2⟩ := drop_cons_facts src (p + 1) n rest2 hdrop1
              simp only [hqxDecodeOne, if_neg (show ¬ n = 0 by omega), if_true, reduceIte,
                if_pos (show 1 < n by omega)] at hrun
              split at hrun
              · exact absurd hrun (by simp)
              · rename_i out1 st21 inp21 heq
                simp only [Option.some.injEq, Prod.mk.injEq] at hrun
                obtain ⟨h1, h2⟩ := hrun
                subst h1
                have hih := ih src (p + 2) k last (n - 2)
                  (sitCrcMaybe skip crc [last]) skip out1 st21 inp21
                  (by omega) (by rw [show p + 2 = p + 1 + 1 from rfl, hdrop2]; exact hok2.2)
                  (by rw [show p + 2 = p + 1 + 1 from rfl, hdrop2]; exact heq)
                obtain ⟨⟨out1x, ss2x⟩, hfill, houtx⟩ := Option.map_eq_some'.mp hih
                simp only at houtx
                subst houtx
                -- first unfold: consume the escape pair, arm the repeat counter
                rw [sitStreamFill.eq_def]
                simp only [hgetD, hgetD2]
                simp [show ¬ src.length ≤ p from by omega,
                  show ¬ src.length ≤ p + 1 from by omega,
                  show ¬ n = 0 from by omega, show (1:Nat) < n from by omega]
                refine ⟨ss2x, ?_⟩
                rw [sitStreamFill.eq_def]
                simp [show ¬ (n - 1 = 0) from by omega]
                rw [show n - 1 - 1 = n - 2 from by omega, hfill]
          · -- literal byte (not 0x90)
            have hokrest : rleCountsOk rest = true := rleCountsOk_tail b rest hok hb
            simp only [hqxDecodeOne, if_neg hb] at hrun
            split at hrun
            · exact absurd hrun (by simp)
            · rename_i out1 st21 inp21 heq
              simp only [Option.some.injEq, Prod.mk.injEq] at hrun
              obtain ⟨h1, h2⟩ := hrun
              subst h1
              have hih := ih src (p + 1) k b 0 (sitCrcMaybe skip crc [b]) skip out1 st21 inp21
                (by omega) (by rw [hdrop1]; exact hokrest) (by rw [hdrop1]; exact heq)
              obtain ⟨⟨out1x, ss2x⟩, hfill, houtx⟩ := Option.map_eq_some'.mp hih
              simp only at houtx
              subst houtx
              rw [sitStreamFill.eq_def]
              simp only [hgetD]
              simp [hfill, hb, show ¬ src.length ≤ p from by omega]

/-- A successful prefix comparison pins every byte the pattern covers. -/
theorem listPrefix_getD (p l : List Nat) (i d : Nat)
    (h : listPrefix p l = true) (hi : i < p.length) : l.getD i d = p.getD i d := by
  induction p generalizing l i with
  | nil => simp at hi
  | cons a as ih =>
    cases l with
    | nil => simp [listPrefix] at h
    | cons b bs =>
      simp only [listPrefix, Bool.and_eq_true, beq_iff_eq] at h
      cases i with
      | zero => simpa using h.1.symm
      | succ j => simpa using ih bs j h.2 (by simpa using hi)

/-- A byte mismatch inside the pattern's range refutes the prefix test. -/
theorem listPrefix_ne_getD (p l : List Nat) (i d : Nat)
    (hne : l.getD i d ≠ p.getD i d) (hi : i < p.length) : listPrefix p l = false := by
  cases h : listPrefix p l
  · rfl
  · exact absurd (listPrefix_getD p l i d h hi) hne

/-- A prefix of a list is a prefix of any right extension. -/
theorem listPrefix_append (p a t : List Nat) (h : listPrefix p a = true) :
    listPrefix p (a ++ t) = true := by
  induction p generalizing a with
  | nil => simp [listPrefix]
  | cons x xs ih =>
    cases a with
    | nil => simp [listPrefix] at h
    | cons b bs =>
      simp only [List.cons_append, listPrefix, Bool.and_eq_true] at h ⊢
      exact ⟨h.1, ih bs h.2⟩

/-- The empty pattern occurs in every list. -/
theorem listInfix_nil_pat (t : List Nat) : listInfix [] t = true := by
  cases t <;> simp [listInfix, listPrefix]

/-- An occurrence in a list persists in any right extension. -/
theorem listInfix_append (p a t : List Nat) (h : listInfix p a = true) :
    listInfix p (a ++ t) = true := by
  induction a with
  | nil =>
    cases p with
    | nil => simpa using listInfix_nil_pat t
    | cons x xs => simp [listInfix, listPrefix] at h
  | cons b bs ih =>
    simp only [listInfix, Bool.or_eq_true] at h
    rcases h with h | h
    · simp only [List.cons_append, listInfix, Bool.or_eq_true]
      exact Or.inl (listPrefix_append _ _ _ h)
    · simp only [List.cons_append, listInfix, Bool.or_eq_true]
      exact Or.inr (ih h)

/-- getD commutes with take inside the taken range. -/
theorem getD_take (l : List Nat) (n i d : Nat) (hi : i < n) :
    (l.take n).getD i d = l.getD i d := by
  induction l generalizing n i with
  | nil => simp
  | cons a as ih =>
    cases n with
    | zero => omega
    | succ m =>
      cases i with
      | zero => simp
      | succ j => simpa using ih m j (by omega)

/-! ## Claim theorems -/

/-- Claim C1 (code bug): the classic-SIT and CPT factories accept the two
minimal archives but return layers with open installed and read still NULL
(read is only enabled by the first open call), and munbox_process tests
the read capability before ever calling open, so it returns MUNBOX_ERROR
("provides neither stream nor iteration capability") instead of iterating
the archive's files and forks. -/
theorem munbox_process_errors_on_archives :
    sitDetect sitMinArchive = true ∧
    munboxProcessDispatch sitMinArchive = ProcOutcome.errorNoCaps ∧
    cptDetect cptMinArchive = true ∧
    munboxProcessDispatch cptMinArchive = ProcOutcome.errorNoCaps ∧
    handlerCaps HandlerId.sit = { hasOpen := true, hasRead := false } ∧
    handlerCaps HandlerId.cpt = { hasOpen := true, hasRead := false } := by
  decide

/-- Claim C2 counterexample: the registry does not consist of the five
claimed factories (sit5 is not registered), and the 80-byte input carrying
a valid SIT5 signature is declined by every registered factory. -/
theorem sit5_not_handled_counterexample :
    sit5SigValid sit5CexInput = true ∧
    sitDetect sit5CexInput = false ∧
    hqxDetect sit5CexInput = false ∧
    binDetect sit5CexInput = false ∧
    cptDetect sit5CexInput = false ∧
    gFormatHandlers.map Prod.fst ≠ ["sit_classic", "sit5", "hqx", "bin", "cpt"] := by
  decide

/-- Claim C2 amended: the registry holds four ordered factories — sit,
hqx, bin, cpt — and every input beginning with a valid SIT5 signature
(and not containing the BinHex signature in its first 255 bytes, which
would legitimately trigger the HQX factory) is declined by all of them. -/
theorem registry_and_sit5_declined (bytes : List Nat)
    (hsig : sit5SigValid bytes = true)
    (hnohqx : listInfix binhexSig (bytes.take 255) = false) :
    gFormatHandlers.map Prod.fst = ["sit", "hqx", "bin", "cpt"] ∧
    ∀ h ∈ gFormatHandlers, handlerDetect h.2 bytes = false := by
  simp only [sit5SigValid, Bool.and_eq_true, decide_eq_true_eq] at hsig
  obtain ⟨⟨hlen, hpre⟩, _⟩ := hsig
  have hb0 : bytes.getD 0 0 = 83 := by
    rw [listPrefix_getD sit5SigHead bytes 0 0 hpre (by decide)]; decide
  have hb1 : bytes.getD 1 0 = 116 := by
    rw [listPrefix_getD sit5SigHead bytes 1 0 hpre (by decide)]; decide
  refine ⟨rfl, ?_⟩
  have hsit : sitDetect bytes = false := by
    have hany : classicMagics.any (fun m => listPrefix m bytes) = false := by
      have k1 := listPrefix_ne_getD (strBytes "SIT!") bytes 1 0 (by rw [hb1]; decide) (by decide)
      have k2 := listPrefix_ne_getD (strBytes "ST46") bytes 1 0 (by rw [hb1]; decide) (by decide)
      have k3 := listPrefix_ne_getD (strBytes "ST50") bytes 1 0 (by rw [hb1]; decide) (by decide)
      have k4 := listPrefix_ne_getD (strBytes "ST60") bytes 1 0 (by rw [hb1]; decide) (by decide)
      have k5 := listPrefix_ne_getD (strBytes "ST65") bytes 1 0 (by rw [hb1]; decide) (by decide)
      have k6 := listPrefix_ne_getD (strBytes "STin") bytes 1 0 (by rw [hb1]; decide) (by decide)
      have k7 := listPrefix_ne_getD (strBytes "STi2") bytes 1 0 (by rw [hb1]; decide) (by decide)
      have k8 := listPrefix_ne_getD (strBytes "STi3") bytes 1 0 (by rw [hb1]; decide) (by decide)
      have k9 := listPrefix_ne_getD (strBytes "STi4") bytes 1 0 (by rw [hb1]; decide) (by decide)
      simp [classicMagics, k1, k2, k3, k4, k5, k6, k7, k8, k9]
    simp [sitDetect, hany]
  have hhqx : hqxDetect bytes = false := by
    have hreg : listInfix binhexSig
        (truncAtZero (bytes.take (min (min 256 bytes.length) 255))) = false := by
      set m := min (min 256 bytes.length) 255 with hm
      cases hcase : listInfix binhexSig (truncAtZero (bytes.take m))
      · rfl
      · exfalso
        have hdec : truncAtZero (bytes.take m) ++
            ((bytes.take m).dropWhile (fun b => b != 0) ++ (bytes.take 255).drop m) =
            bytes.take 255 := by
          rw [← List.append_assoc]
          have e2 : truncAtZero (bytes.take m) ++ (bytes.take m).dropWhile (fun b => b != 0) =
              bytes.take m := by
            simp only [truncAtZero]
            exact List.takeWhile_append_dropWhile (fun b => b != 0) (bytes.take m)
          rw [e2]
          have e1 : bytes.take m = (bytes.take 255).take m := by
            rw [List.take_take]
            congr 1
            omega
          rw [e1, List.take_append_drop]
        have := listInfix_append binhexSig (truncAtZero (bytes.take m))
          ((bytes.take m).dropWhile (fun b => b != 0) ++ (bytes.take 255).drop m) hcase
        rw [hdec] at this
        rw [this] at hnohqx
        exact Bool.noConfusion hnohqx
    simp only [hqxDetect]
    rw [hreg]
    simp
  have hbin : binDetect bytes = false := by
    have h0 : (bytes.take 128).getD 0 0 = 83 := by
      rw [getD_take bytes 128 0 0 (by omega), hb0]
    simp only [binDetect, binHeaderOk]
    rw [h0]
    simp
  have hcpt : cptDetect bytes = false := by
    simp only [cptDetect]
    rw [hb0]
    simp
  intro h hmem
  simp only [gFormatHandlers, List.mem_cons, List.not_mem_nil, or_false] at hmem
  rcases hmem with h1 | h1 | h1 | h1 <;> subst h1 <;>
    simp [handlerDetect, hsit, hhqx, hbin, hcpt]

/-- Claim C2 amended witness at the concrete SIT5-signature input. -/
theorem registry_and_sit5_declined_witness :
    sit5SigValid sit5CexInput = true ∧
    listInfix binhexSig (sit5CexInput.take 255) = false ∧
    (gFormatHandlers.map Prod.fst = ["sit", "hqx", "bin", "cpt"] ∧
     ∀ h ∈ gFormatHandlers, handlerDetect h.2 sit5CexInput = false) :=
  ⟨by decide, by decide,
    registry_and_sit5_declined sit5CexInput (by decide) (by decide)⟩

/-- Claim C3: for SIT forks compressed with methods 0, 1, 2 or 13 the
CRC-16 accumulated over all bytes produced for the fork is compared with
the entry's expected CRC once the fork has been fully produced
(out_rem = 0), and a mismatch makes sit_layer_read return an error; forks
compressed with method 15 (Arsenic) are exempt because sit_layer_open sets
skip_crc for them. -/
theorem sit_fork_crc_checked (fd : SitForkDesc) (innerOut out : List Nat)
    (ss ss2 : SitStream) (cap : Nat)
    (hsetup : sitSetupStream fd innerOut = some ss)
    (hfill : sitStreamFill ss cap = some (out, ss2)) :
    ((fd.method = 0 ∨ fd.method = 1 ∨ fd.method = 2 ∨ fd.method = 13) → ss2.outRem = 0 →
      sitLayerRead ss fd.crc cap =
        some (if sitCrcUpdate 0 out = fd.crc then Except.ok (out, ss2)
              else Except.error SitReadErr.crcMismatch)) ∧
    (fd.method = 15 → sitLayerRead ss fd.crc cap = some (Except.ok (out, ss2))) := by
  obtain ⟨hskip, hcrc⟩ :=
    sitStreamFill_crcInv (cap + (ss.src.length - ss.srcPos)) ss cap le_rfl out ss2 hfill
  constructor
  · intro hm hrem
    have hs0 : ss.skipCrc = false ∧ ss.crcAccum = 0 := by
      rcases hm with h | h | h | h <;>
        · simp [sitSetupStream, h] at hsetup
          subst hsetup
          exact ⟨rfl, rfl⟩
    have hskip2 : ss2.skipCrc = false := by rw [hskip, hs0.1]
    have hacc : ss2.crcAccum = sitCrcUpdate 0 out := by
      rw [hcrc hs0.1, hs0.2]
    unfold sitLayerRead
    rw [hfill]
    by_cases hc : sitCrcUpdate 0 out = fd.crc
    · rw [if_pos hc]
      simp [hrem, hskip2, hacc, hc]
    · rw [if_neg hc]
      simp [hrem, hskip2, hacc, hc]
  · intro h15
    have hs1 : ss.skipCrc = true := by
      simp [sitSetupStream, h15] at hsetup
      subst hsetup
      rfl
    have hskip2 : ss2.skipCrc = true := by rw [hskip, hs1]
    unfold sitLayerRead
    rw [hfill]
    simp [hskip2]

/-- Claim C3 witness: a copy-method fork of three bytes with its correct
CRC passes the end-of-fork check. -/
theorem sit_fork_crc_checked_witness :
    sitSetupStream sitC3Desc [] = some sitC3Stream ∧
    sitStreamFill sitC3Stream 8 = some ([1, 2, 3], sitC3StreamEnd) ∧
    sitC3StreamEnd.outRem = 0 ∧
    sitLayerRead sitC3Stream sitC3Desc.crc 8 =
      some (if sitCrcUpdate 0 [1, 2, 3] = sitC3Desc.crc then Except.ok ([1, 2, 3], sitC3StreamEnd)
            else Except.error SitReadErr.crcMismatch) := by
  have h1 : sitSetupStream sitC3Desc [] = some sitC3Stream := rfl
  have h2 : sitStreamFill sitC3Stream 8 = some ([1, 2, 3], sitC3StreamEnd) := by
    rw [sitStreamFill.eq_def]
    simp [sitC3Stream, sitC3StreamEnd, sitCrcMaybe, sitStreamFill]
  exact ⟨h1, h2, rfl,
    (sit_fork_crc_checked sitC3Desc [] [1, 2, 3] sitC3Stream sitC3StreamEnd 8 h1 h2).1
      (Or.inl rfl) rfl⟩

/-- Claim C4 counterexample: on the compressed bytes 90 00 90 02 with
identical initial state (last byte 0), the SIT method-1 stream emits
90 00 while the BinHex RLE90 decode emits 90 90 — after an escaped
literal 0x90 the BinHex decoder updates its last-output byte and the SIT
decoder does not, so the two decoders are not the same function. -/
theorem sit_hqx_rle90_differ :
    sitSetupStream rle90CexDesc [] = some rle90CexStream ∧
    (sitStreamFill rle90CexStream 2).map Prod.fst = some [0x90, 0x00] ∧
    (hqxRleRun ⟨0, 0⟩ rle90CexDesc.comp 2).map Prod.fst = some [0x90, 0x90] ∧
    ([0x90, 0x00] : List Nat) ≠ [0x90, 0x90] := by
  refine ⟨rfl, ?_, by decide, by decide⟩
  simp [sitStreamFill, rle90CexStream, sitCrcMaybe]

/-- Claim C4 amended: restricted to compressed streams in which every
0x90 escape carries a count of at least 2 — so that neither the
literal-0x90 nor the count-1 divergence can arise — the SIT method-1
stream produces exactly the bytes the BinHex RLE90 decode produces,
whenever the latter succeeds in producing the requested length (both
decoders starting from last byte 0 as sit_layer_open initialises it). -/
theorem sit_hqx_rle90_agree (fd : SitForkDesc) (ss : SitStream) (out : List Nat)
    (st2 : HqxRle) (inp2 : List Nat)
    (hmethod : fd.method = 1)
    (hsetup : sitSetupStream fd [] = some ss)
    (hok : rleCountsOk fd.comp = true)
    (hrun : hqxRleRun ⟨0, 0⟩ fd.comp fd.uncompLen = some (out, st2, inp2)) :
    (sitStreamFill ss fd.uncompLen).map Prod.fst = some out := by
  have hss : ss =
      { kind := SKind.rle90, src := fd.comp, srcPos := 0, outRem := fd.uncompLen,
        skipCrc := false, crcAccum := 0, lastByte := 0, repRem := 0, inner := [] } := by
    simp [sitSetupStream, hmethod] at hsetup
    exact hsetup.symm
  subst hss
  exact rle90_equiv_aux (fd.uncompLen + fd.comp.length) fd.comp 0 fd.uncompLen 0 0 0 false
    out st2 inp2 (by simp) (by simpa using hok) (by simpa using hrun)

/-- Claim C4 amended witness on the stream 41 90 03. -/
theorem sit_hqx_rle90_agree_witness :
    rleCountsOk [65, 144, 3] = true ∧
    hqxRleRun ⟨0, 0⟩ [65, 144, 3] 3 = some ([65, 65, 65], ⟨0, 65⟩, []) ∧
    (sitStreamFill
        { kind := SKind.rle90, src := [65, 144, 3], srcPos := 0, outRem := 3,
          skipCrc := false, crcAccum := 0, lastByte := 0, repRem := 0, inner := [] } 3).map
      Prod.fst = some [65, 65, 65] := by
  refine ⟨by decide, by decide, ?_⟩
  exact sit_hqx_rle90_agree
    { uncompLen := 3, crc := 0, method := 1, comp := [65, 144, 3] } _ [65, 65, 65] ⟨0, 65⟩ []
    rfl rfl (by decide) (by decide)

/-- Draining an armed repeat emits the last byte until the counter runs
out. -/
theorem hqxRleRun_drain (last2 : Nat) :
    ∀ (c : Nat) (inp : List Nat),
      hqxRleRun ⟨c, last2⟩ inp c = some (List.replicate c last2, ⟨0, last2⟩, inp) := by
  intro c
  induction c with
  | zero => intro inp; rfl
  | succ m ih =>
    intro inp
    simp only [hqxRleRun, hqxDecodeOne, ih inp, List.replicate_succ]

/-- Claim C5: in BinHex decoding, after a decoded 0x90 escape, a count of
0 emits a literal 0x90, a count of 1 is an error, and a count n ≥ 2 emits
the most recent output byte n - 1 further times. -/
theorem hqx_rle_escape_semantics (last n : Nat) (rest : List Nat) (hn : 2 ≤ n) :
    hqxDecodeOne ⟨0, last⟩ (0x90 :: 0 :: rest) = some (0x90, ⟨0, last⟩, rest) ∧
    hqxDecodeOne ⟨0, last⟩ (0x90 :: 1 :: rest) = none ∧
    hqxRleRun ⟨0, last⟩ (0x90 :: n :: rest) (n - 1) =
      some (List.replicate (n - 1) last, ⟨0, last⟩, rest) := by
  refine ⟨by simp [hqxDecodeOne], by simp [hqxDecodeOne], ?_⟩
  obtain ⟨m, hm⟩ : ∃ m, n = m + 2 := ⟨n - 2, by omega⟩
  subst hm
  have hstep : hqxDecodeOne ⟨0, last⟩ (0x90 :: (m + 2) :: rest) =
      some (last, ⟨m, last⟩, rest) := by
    simp [hqxDecodeOne, show ¬ (m + 2 = 0) from by omega, show 1 < m + 2 from by omega]
  rw [show m + 2 - 1 = m + 1 from by omega]
  simp only [hqxRleRun, hstep, hqxRleRun_drain last m rest, List.replicate_succ]

/-- Claim C5 witness at count 3. -/
theorem hqx_rle_escape_semantics_witness :
    (2 ≤ 3 ∧
     hqxDecodeOne ⟨0, 7⟩ (0x90 :: 0 :: [9]) = some (0x90, ⟨0, 7⟩, [9]) ∧
     hqxDecodeOne ⟨0, 7⟩ (0x90 :: 1 :: [9]) = none ∧
     hqxRleRun ⟨0, 7⟩ (0x90 :: 3 :: [9]) (3 - 1) =
       some (List.replicate (3 - 1) 7, ⟨0, 7⟩, [9])) :=
  ⟨by decide, hqx_rle_escape_semantics 7 3 [9] (by decide)⟩

set_option maxRecDepth 4000 in
/-- Claim C6 counterexample: a 128-byte header satisfying every condition
the claim states (version 0, byte 74 = 0, name length 1, byte 82 = 0) is
nevertheless declined, because its data-fork length field holds
0xFFFFFFFF and the factory also bounds both fork lengths by 0x7FFFFFFF. -/
theorem bin_header_bound_counterexample :
    binClaimHeaderOk binCexHeader = true ∧
    binHeaderOk binCexHeader = false ∧
    binCexHeader.length = 128 := by
  refine ⟨by decide, by decide, by decide⟩

/-- Claim C6 amended: the MacBinary factory accepts a 128-byte header iff
the claim's conditions hold (byte 0 = 0, byte 74 = 0, name length 1..63,
CRC-16/XMODEM over bytes 0..123 matching bytes 124..125 or byte 82 = 0)
and, additionally, both fork length fields are at most 0x7FFFFFFF. -/
theorem bin_header_accept_iff (hdr : List Nat) :
    binHeaderOk hdr = true ↔
      (binClaimHeaderOk hdr = true ∧
       loadBE32 hdr 83 ≤ 0x7FFFFFFF ∧ loadBE32 hdr 87 ≤ 0x7FFFFFFF) := by
  simp only [binHeaderOk, binClaimHeaderOk, Bool.and_eq_true, Bool.or_eq_true, beq_iff_eq,
    decide_eq_true_eq, Bool.not_eq_true', beq_eq_false_iff_ne, ne_eq, Nat.not_lt,
    decide_eq_false_iff_not]
  omega

/-- Claim C7 counterexample: the classic-SIT factory, declining a 20-byte
memory input, leaves the input positioned at offset 14; the bytes
obtainable by subsequent reads differ from those obtainable just after
open(first). -/
theorem sit_factory_no_rewind_counterexample :
    (sitFactoryProbe { bytes := memCexInput, pos := 0, opened := false }).1 = false ∧
    (sitFactoryProbe { bytes := memCexInput, pos := 0, opened := false }).2 =
      { bytes := memCexInput, pos := 14, opened := true } ∧
    memObtainable (sitFactoryProbe { bytes := memCexInput, pos := 0, opened := false }).2 ≠
      memObtainable (memOpenFirst { bytes := memCexInput, pos := 0, opened := false }) := by
  decide

/-- Claim C7 amended: the hqx and bin factories, and the cpt factory's
header probe, leave any memory input in the state produced by
open(first) — rewound to the beginning — regardless of whether they
accept or decline; the classic-SIT factory does not (see the
counterexample). -/
theorem factories_rewind_to_start (m : MemSt) :
    (hqxFactoryProbe m).2 = memOpenFirst m ∧
    (binFactoryProbe m).2 = memOpenFirst m ∧
    (cptFactoryProbe m).2 = memOpenFirst m := by
  refine ⟨?_, ?_, ?_⟩
  · rfl
  · simp only [binFactoryProbe]
    split <;> rfl
  · simp only [cptFactoryProbe]
    split <;> rfl

/-- Claim C9: for the HQX, BIN, classic-SIT and CPT layers, when the first
file's data fork is empty and its resource fork is not, open(first)
reports the resource fork of that file with its length. -/
theorem empty_data_fork_selects_resource (r : Nat) (rest : List ArcEntry) (hr : 0 < r) :
    hqxOpenFirst 0 r = some (ForkKind.rsrc, r) ∧
    binOpenFirst 0 r = some (ForkKind.rsrc, r) ∧
    sitOpenFirstSel ({ dataLen := 0, rsrcLen := r } :: rest) = some (0, ForkKind.rsrc, r) ∧
    cptOpenFirstSel ({ dataLen := 0, rsrcLen := r } :: rest) = some (0, ForkKind.rsrc, r) := by
  have hsel : skipEmptyForks ({ dataLen := 0, rsrcLen := r } :: rest) ForkKind.data =
      some (0, ForkKind.rsrc, r) := by
    rw [skipEmptyForks.eq_def]
    simp only [show ((0 : Nat) == 0) = true from rfl, if_true]
    rw [skipEmptyForks.eq_def]
    simp [show (r == 0) = false from by simp; omega]
  refine ⟨?_, ?_, hsel, hsel⟩
  · simp [hqxOpenFirst, hr, Nat.not_lt.mpr (Nat.le_refl 0)]
  · simp [binOpenFirst, hr, Nat.not_lt.mpr (Nat.le_refl 0)]

/-- Claim C9 witness with a one-byte resource fork. -/
theorem empty_data_fork_selects_resource_witness :
    (0 < 1 ∧
     hqxOpenFirst 0 1 = some (ForkKind.rsrc, 1) ∧
     binOpenFirst 0 1 = some (ForkKind.rsrc, 1) ∧
     sitOpenFirstSel [{ dataLen := 0, rsrcLen := 1 }] = some (0, ForkKind.rsrc, 1) ∧
     cptOpenFirstSel [{ dataLen := 0, rsrcLen := 1 }] = some (0, ForkKind.rsrc, 1)) :=
  ⟨by decide, empty_data_fork_selects_resource 1 [] (by decide)⟩

/-- Claim C10 counterexample: two consecutive forks that share the (empty)
filename form one maximal run, yet munbox_process starts a new file for
each of them, because its new-file condition also fires whenever
current_name is still empty. -/
theorem process_events_counterexample :
    munboxProcessEvents c10CexForks ≠ runEvents c10CexForks ∧
    munboxProcessEvents c10CexForks =
      [PEvent.newFile "", PEvent.writeData [1], PEvent.endFile,
       PEvent.newFile "", PEvent.writeData [2], PEvent.endFile] ∧
    runEvents c10CexForks =
      [PEvent.newFile "", PEvent.writeData [1], PEvent.writeData [2], PEvent.endFile] := by
  refine ⟨?_, rfl, rfl⟩
  decide

/-- With a file already open under a non-empty name, the iteration loop of
munbox_process follows the run structure, provided no fork is unnamed. -/
theorem processLoop_run (fs : List PFork) :
    ∀ cur : String, cur ≠ "" → (∀ f ∈ fs, f.name ≠ "") →
      processLoop cur true fs = runEventsGo cur fs := by
  induction fs with
  | nil => intro cur _ _; rfl
  | cons f rest ih =>
    intro cur hc hall
    have hf : f.name ≠ "" := hall f (List.mem_cons_self f rest)
    have hrest : ∀ g ∈ rest, g.name ≠ "" := fun g hg => hall g (List.mem_cons_of_mem f hg)
    by_cases hn : f.name = cur
    · have hcond : (cur == "" || cur != f.name) = false := by
        simp [hn, hc]
      have hmatch : (f.name == cur) = true := by simp [hn]
      simp only [processLoop, runEventsGo, hcond, hmatch, if_true, Bool.false_eq_true, if_false]
      rw [ih cur hc hrest]
    · have hcond : (cur == "" || cur != f.name) = true := by
        simp only [Bool.or_eq_true, bne_iff_ne, ne_eq]
        exact Or.inr fun h => hn h.symm
      have hmatch : (f.name == cur) = false := by simp [hn]
      simp only [processLoop, runEventsGo, hcond, hmatch, if_true, Bool.false_eq_true, if_false]
      rw [ih f.name hf hrest]
      rfl

/-- Claim C10 amended: when every fork carries a non-empty filename,
munbox_process emits exactly the claimed event sequence: one new_file per
maximal run of consecutive forks with equal names, the forks' write events
in order inside the run, and an end_file closing each run. -/
theorem process_events_runs (forks : List PFork)
    (h : ∀ f ∈ forks, f.name ≠ "") :
    munboxProcessEvents forks = runEvents forks := by
  cases forks with
  | nil => rfl
  | cons f rest =>
    have hf : f.name ≠ "" := h f (List.mem_cons_self f rest)
    have hrest : ∀ g ∈ rest, g.name ≠ "" := fun g hg => h g (List.mem_cons_of_mem f hg)
    have hcond : (("" : String) == "" || ("" : String) != f.name) = true := by simp
    simp only [munboxProcessEvents, runEvents, processLoop, hcond, if_true, Bool.false_eq_true,
      if_false, List.nil_append]
    rw [processLoop_run rest f.name hf hrest]

/-- Claim C10 amended witness: two named forks, the second starting a new
run. -/
theorem process_events_runs_witness :
    ((∀ f ∈ [({ name := "a", isRsrc := false, content := [1] } : PFork),
              { name := "b", isRsrc := true, content := [2] }], f.name ≠ "") ∧
     munboxProcessEvents
        [{ name := "a", isRsrc := false, content := [1] },
         { name := "b", isRsrc := true, content := [2] }] =
       runEvents
        [{ name := "a", isRsrc := false, content := [1] },
         { name := "b", isRsrc := true, content := [2] }]) :=
  ⟨by decide, process_events_runs _ (by decide)⟩

theorem foldl_fixed_of_id {α β : Type} (f : α → β → α) (l : List β)
    (h : ∀ st b, b ∈ l → f st b = st) : ∀ st, l.foldl f st = st := by
  induction l with
  | nil => intro st; rfl
  | cons x xs ih =>
    intro st
    rw [List.foldl_cons, h st x (List.mem_cons_self x xs)]
    exact ih (fun st b hb => h st b (List.mem_cons_of_mem x hb)) st

theorem replicate_getD_zero (n i : Nat) : (List.replicate n (0 : Int)).getD i 0 = 0 := by
  induction n generalizing i with
  | zero => cases i <;> rfl
  | succ m ih =>
    cases i with
    | zero => rfl
    | succ j => exact ih j

theorem cexLens_getD_zero (n : Nat) (hn : 0 < n) : (cexLens n).getD 0 0 = 1 := by
  cases n with
  | zero => exact absurd hn (by omega)
  | succ m => rfl

theorem cexLens_getD_one (n : Nat) : (cexLens n).getD 1 0 = 0 := by
  cases n with
  | zero => rfl
  | succ m =>
    cases m with
    | zero => rfl
    | succ k => rfl

theorem cexLens_getD_ge_two (n i : Nat) (h : 2 ≤ i) : (cexLens n).getD i 0 = 0 := by
  obtain ⟨j, rfl⟩ : ∃ j, i = j + 2 := ⟨i - 2, by omega⟩
  cases n with
  | zero => rfl
  | succ m =>
    cases m with
    | zero => rfl
    | succ k => exact replicate_getD_zero k j

theorem cexLens_getD_le_one (n i : Nat) :
    (cexLens n).getD i 0 = 0 ∨ (cexLens n).getD i 0 = 1 := by
  match i with
  | 0 =>
    cases n with
    | zero => exact Or.inl rfl
    | succ m => exact Or.inr (cexLens_getD_zero (m + 1) (Nat.succ_pos m))
  | 1 => exact Or.inl (cexLens_getD_one n)
  | j + 2 => exact Or.inl (cexLens_getD_ge_two n (j + 2) (by omega))

theorem cptBuildLevel_cex_id (n count l : Nat) (hl : 2 ≤ l) (st : CptBuildSt) :
    cptBuildLevel (cexLens n) count l st = st := by
  unfold cptBuildLevel
  refine foldl_fixed_of_id _ _ (fun st' i _ => ?_) st
  have h2 : ((cexLens n).getD i 0 == Int.ofNat l) = false := by
    rcases cexLens_getD_le_one n i with h | h <;> rw [h] <;> simp <;> omega
  by_cases hle : (st'.left == 0) = true
  · simp [hle]
  · simp only [Bool.not_eq_true] at hle
    rw [hle, h2]
    simp

theorem cptBuildLevel_cex_one (c : Nat) :
    cptBuildLevel (cexLens (c + 1)) (c + 1) 1
      { tree := [(-1, -2)], code := 0, left := c + 1, minl := 0x7fffffff, maxl := 0 } =
      { tree := cexTree, code := 1, left := c, minl := 1, maxl := 1 } := by
  unfold cptBuildLevel
  rw [List.range_succ_eq_map, List.foldl_cons, List.foldl_map]
  have h0 :
      (if ({ tree := [(-1, -2)], code := 0, left := c + 1, minl := 0x7fffffff,
              maxl := 0 } : CptBuildSt).left == 0 then
         ({ tree := [(-1, -2)], code := 0, left := c + 1, minl := 0x7fffffff,
             maxl := 0 } : CptBuildSt)
       else if (cexLens (c + 1)).getD 0 0 == Int.ofNat 1 then
         { tree := cptInsertCode [(-1, -2)] 0 1 0, code := 0 + 1, left := c + 1 - 1,
           minl := if Int.ofNat 1 < (0x7fffffff : Int) then Int.ofNat 1 else 0x7fffffff,
           maxl := if (0 : Int) < Int.ofNat 1 then Int.ofNat 1 else 0 }
       else
         { tree := [(-1, -2)], code := 0, left := c + 1, minl := 0x7fffffff, maxl := 0 }) =
      ({ tree := cexTree, code := 1, left := c, minl := 1, maxl := 1 } : CptBuildSt) := by
    rw [cexLens_getD_zero (c + 1) (Nat.succ_pos c)]
    norm_num
    rfl
  rw [h0]
  refine foldl_fixed_of_id _ _ (fun st' b hb => ?_) _
  have h2 : ((cexLens (c + 1)).getD (Nat.succ b) 0 == Int.ofNat 1) = false := by
    have : (cexLens (c + 1)).getD (Nat.succ b) 0 = 0 := by
      cases b with
      | zero => exact cexLens_getD_one (c + 1)
      | succ k => exact cexLens_getD_ge_two (c + 1) (k + 2) (by omega)
    rw [this]
    simp
  by_cases hle : (st'.left == 0) = true
  · simp [hle]
  · simp only [Bool.not_eq_true] at hle
    rw [hle, h2]
    simp

theorem cptPfxBuild_cex (n : Nat) (hn : n ≠ 0) :
    cptPfxBuild (cexLens n) n 15 = cexPfx := by
  obtain ⟨c, rfl⟩ : ∃ c, n = c + 1 := ⟨n - 1, by omega⟩
  unfold cptPfxBuild
  rw [show List.range 15 = [0, 1, 2, 3, 4, 5, 6, 7, 8, 9, 10, 11, 12, 13, 14] from rfl]
  simp only [List.foldl_cons, List.foldl_nil, Nat.reduceAdd, cptBuildLevel_cex_one c,
    cptBuildLevel_cex_id (c + 1) (c + 1) 2 (by omega),
    cptBuildLevel_cex_id (c + 1) (c + 1) 3 (by omega),
    cptBuildLevel_cex_id (c + 1) (c + 1) 4 (by omega),
    cptBuildLevel_cex_id (c + 1) (c + 1) 5 (by omega),
    cptBuildLevel_cex_id (c + 1) (c + 1) 6 (by omega),
    cptBuildLevel_cex_id (c + 1) (c + 1) 7 (by omega),
    cptBuildLevel_cex_id (c + 1) (c + 1) 8 (by omega),
    cptBuildLevel_cex_id (c + 1) (c + 1) 9 (by omega),
    cptBuildLevel_cex_id (c + 1) (c + 1) 10 (by omega),
    cptBuildLevel_cex_id (c + 1) (c + 1) 11 (by omega),
    cptBuildLevel_cex_id (c + 1) (c + 1) 12 (by omega),
    cptBuildLevel_cex_id (c + 1) (c + 1) 13 (by omega),
    cptBuildLevel_cex_id (c + 1) (c + 1) 14 (by omega),
    cptBuildLevel_cex_id (c + 1) (c + 1) 15 (by omega)]
  rfl

set_option maxRecDepth 2000 in
theorem cptReadLens_cex0 :
    cptReadLens { bytes := cptLzhCex, bitpos := 0 } 256 =
      some (cexLens 256, { bytes := cptLzhCex, bitpos := 16 }) := rfl

set_option maxRecDepth 2000 in
theorem cptReadLens_cex1 :
    cptReadLens { bytes := cptLzhCex, bitpos := 16 } 64 =
      some (cexLens 64, { bytes := cptLzhCex, bitpos := 32 }) := rfl

set_option maxRecDepth 2000 in
theorem cptReadLens_cex2 :
    cptReadLens { bytes := cptLzhCex, bitpos := 32 } 128 =
      some (cexLens 128, { bytes := cptLzhCex, bitpos := 48 }) := rfl

theorem cptLzhBuildTables_cex :
    cptLzhBuildTables { bytes := cptLzhCex, bitpos := 0 } =
      some ((cexPfx, cexPfx, cexPfx), { bytes := cptLzhCex, bitpos := 48 }) := by
  rw [cptLzhBuildTables.eq_def, cptReadLens_cex0]
  simp only [cptReadLens_cex1, cptReadLens_cex2,
    cptPfxBuild_cex 256 (by omega), cptPfxBuild_cex 64 (by omega),
    cptPfxBuild_cex 128 (by omega)]

theorem cptLzhCexBuilt_eq :
    cptLzhCexBuilt =
      { br := { bytes := cptLzhCex, bitpos := 48 }, win := List.replicate 8192 0, pos := 0,
        blockcount := 0, blockstart := 6, lit := cexPfx, lenp := cexPfx, offp := cexPfx,
        built := true, pend := [] } := by
  rw [cptLzhCexBuilt.eq_def, cptLzhBuildTables_cex]
  rfl

theorem cptLzhsNext_init_cex : cptLzhsNext (cptLzhsInit cptLzhCex) = none := by
  rw [cptLzhsNext.eq_def]
  simp only [cptLzhsInit, show ((0x1fff0 : Nat) ≤ 0) = False from by simp,
    if_false, Bool.false_eq_true, cptLzhBuildTables_cex]
  rfl

theorem cptLayerRead_eof {σ : Type} (next : σ → Option (Nat × σ)) (src : σ) (n m : Nat)
    (hn : n ≠ 0) (hm : m ≠ 0) (hnext : next src = none) :
    (cptLayerReadCount next (cptForkStreamInit src n) m).1 = 0 := by
  obtain ⟨j, hj⟩ : ∃ j, min m n = j + 1 := ⟨min m n - 1, by omega⟩
  have hrle : cptRleRead next cptRleInit src (j + 1) = ([], cptRleInit, src) := by
    simp [cptRleRead, cptRleInit, hnext]
  simp [cptLayerReadCount, cptForkStreamInit, cptForkStreamRead, hn, hj, hrle]

/-- Claim C8 counterexample: decoding cptLzhCex, the first unit is a match
(flag bit 0) whose length symbol decodes to 0, yet cpt_lzhs_next signals a
normal end of stream (the C function returns 0 rather than an error), and
the fork read built on it delivers a byte count of 0 — a clean end of
data. -/
theorem cpt_zero_length_counterexample :
    cptBrPeek cptLzhCexBuilt.br 1 = 0 ∧
    cptPfxNext cptLzhCexBuilt.lenp (cptBrSkip cptLzhCexBuilt.br 1) =
      some (0, { bytes := cptLzhCex, bitpos := 50 }) ∧
    cptLzhsNext (cptLzhsInit cptLzhCex) = none ∧
    (cptLayerReadCount cptLzhsNext (cptForkStreamInit (cptLzhsInit cptLzhCex) 10) 10).1 = 0 := by
  refine ⟨?_, ?_, cptLzhsNext_init_cex, ?_⟩
  · rw [cptLzhCexBuilt_eq]
    decide
  · rw [cptLzhCexBuilt_eq]
    decide
  · exact cptLayerRead_eof cptLzhsNext (cptLzhsInit cptLzhCex) 10 10 (by omega) (by omega)
      cptLzhsNext_init_cex

/-- Claim C8 amended: whenever the decoder, with tables built and not at a
block boundary, reads a match unit whose length symbol decodes to 0, it
returns none — the end-of-stream result 0 of cpt_lzhs_next — rather than
an error. -/
theorem cpt_zero_length_is_eof (s : CptLzhSt) (osym : Nat) (br2 br3 : CptBr)
    (hpend : s.pend = []) (hbuilt : s.built = true)
    (hbc : s.blockcount < 0x1fff0)
    (hbits : cptBrBitsLeft s.br ≠ 0)
    (hflag : cptBrPeek s.br 1 = 0)
    (hlen : cptPfxNext s.lenp (cptBrSkip s.br 1) = some (0, br2))
    (hoff : cptPfxNext s.offp br2 = some (osym, br3)) :
    cptLzhsNext s = none := by
  simp [cptLzhsNext, hpend, hbuilt, cptBrGet, hflag, hlen, hoff,
    show ¬ (0x1fff0 ≤ s.blockcount) from by omega,
    show (cptBrBitsLeft s.br == 0) = false from by simp [hbits]]

/-- Claim C8 amended witness, at the built state over cptLzhCex. -/
theorem cpt_zero_length_is_eof_witness :
    (cptLzhCexBuilt.pend = [] ∧ cptLzhCexBuilt.built = true ∧
     cptLzhCexBuilt.blockcount < 0x1fff0 ∧
     cptBrBitsLeft cptLzhCexBuilt.br ≠ 0 ∧
     cptBrPeek cptLzhCexBuilt.br 1 = 0 ∧
     cptPfxNext cptLzhCexBuilt.lenp (cptBrSkip cptLzhCexBuilt.br 1) =
       some (0, { bytes := cptLzhCex, bitpos := 50 }) ∧
     cptPfxNext cptLzhCexBuilt.offp { bytes := cptLzhCex, bitpos := 50 } =
       some (0, { bytes := cptLzhCex, bitpos := 51 }) ∧
     cptLzhsNext cptLzhCexBuilt = none) :=
  ⟨by rw [cptLzhCexBuilt_eq], by rw [cptLzhCexBuilt_eq],
   by rw [cptLzhCexBuilt_eq]; decide, by rw [cptLzhCexBuilt_eq]; decide,
   by rw [cptLzhCexBuilt_eq]; decide, by rw [cptLzhCexBuilt_eq]; decide,
   by rw [cptLzhCexBuilt_eq]; decide,
   cpt_zero_length_is_eof cptLzhCexBuilt 0 { bytes := cptLzhCex, bitpos := 50 }
     { bytes := cptLzhCex, bitpos := 51 } (by rw [cptLzhCexBuilt_eq])
     (by rw [cptLzhCexBuilt_eq]) (by rw [cptLzhCexBuilt_eq]; decide)
     (by rw [cptLzhCexBuilt_eq]; decide) (by rw [cptLzhCexBuilt_eq]; decide)
     (by rw [cptLzhCexBuilt_eq]; decide) (by rw [cptLzhCexBuilt_eq]; decide)⟩
